import Mathlib

/-!
Shallow embedding of the core of the doc-parser repository (document chunking,
in-memory vector store, lexical fallback store, answer generation) together
with theorems settling the specification claims.

Modelling conventions:
* JavaScript numbers are modelled as exact rationals (`ℚ`); all comparisons in
  the claims are robust to this idealisation.
* JavaScript strings are modelled as `String` at the interfaces and as
  `List Char` inside the text-processing functions (ASCII inputs).
* The concrete regular expressions of the source are translated one by one
  into executable scanners over `List Char`.
* External collaborators (embedding provider, text-generation provider) are
  passed as function parameters returning `Except`, mirroring promise
  rejection; `try`/`catch` becomes a `match` on the `Except`.
* `Date.now()` is passed in as an explicit `now : ℚ` parameter.
-/

namespace DocParser

set_option maxRecDepth 16384

/- Batteries marks `Rat.add`, `Rat.mul`, `Rat.sub` and `Rat.inv` irreducible,
which blocks kernel evaluation of the concrete stores used by the witnesses
and counterexamples below; restore the default reducibility inside this
development so that they evaluate by `decide`. -/
attribute [local semireducible] Rat.add Rat.mul Rat.sub Rat.inv

/-- Whitespace test for the JavaScript regex class backslash-s and for
`String.prototype.trim` (space, tab, line feed, carriage return, vertical tab,
form feed; the Unicode space characters do not occur in this repository's
inputs). -/
def jsIsSpace (c : Char) : Bool :=
  c = ' ' || c = '\t' || c = '\n' || c = '\r' || c = '\x0b' || c = '\x0c'

/-- ASCII lower-casing of one character, modelling `String.prototype.toLowerCase`
on the ASCII texts this repository handles. -/
def lowerC (c : Char) : Char := c.toLower

/-- Lower-case a character list (`text.toLowerCase()`). -/
def lowerL (s : List Char) : List Char := s.map lowerC

/-- `String.prototype.trim`. -/
def jsTrimL (s : List Char) : List Char :=
  ((s.dropWhile jsIsSpace).reverse.dropWhile jsIsSpace).reverse

/-- `hay.includes(needle)` for strings (substring containment). -/
def hasSubL (needle : List Char) : List Char → Bool
  | [] => needle.isEmpty
  | c :: rest => needle.isPrefixOf (c :: rest) || hasSubL needle rest

/-- String view of a character list. -/
def ofL (l : List Char) : String := ⟨l⟩

/-- Character-list view of a string. -/
def strL (s : String) : List Char := s.data

/-- `hay.includes(needle)` on strings. -/
def jsIncludes (hay needle : String) : Bool := hasSubL (strL needle) (strL hay)

/-- `s.toLowerCase()` on strings. -/
def jsLower (s : String) : String := ofL (lowerL (strL s))

/-- `s.trim()` on strings. -/
def jsTrim (s : String) : String := ofL (jsTrimL (strL s))

/-- `s.startsWith(p)`. -/
def jsStartsWith (s p : String) : Bool := (strL p).isPrefixOf (strL s)

/-- Split on the line-feed character; models working line by line as the
`m`-flagged anchors `^`/`$` of the source regexes do. -/
def splitLinesL : List Char → List (List Char)
  | [] => [[]]
  | c :: rest =>
    if c = '\n' then [] :: splitLinesL rest
    else
      match splitLinesL rest with
      | [] => [[c]]
      | l :: ls => (c :: l) :: ls

/-- Pair every line with the offset of its first character in the whole text. -/
def lineStartsAux : List (List Char) → Nat → List (Nat × List Char)
  | [], _ => []
  | l :: ls, pos => (pos, l) :: lineStartsAux ls (pos + l.length + 1)

/-- Lines of a text together with their starting offsets. -/
def linesWithPos (s : List Char) : List (Nat × List Char) :=
  lineStartsAux (splitLinesL s) 0

/-- Rejoin lines with line feeds (inverse of `splitLinesL`). -/
def joinLinesL (ls : List (List Char)) : List Char :=
  List.intercalate ['\n'] ls

/-- `query.split(regex of one-or-more whitespace)`: JavaScript `split(/\s+/)`.
Separators are maximal whitespace runs; an empty input yields one empty part,
and a leading separator yields a leading empty part, exactly as in JS. -/
def splitWsGo : Nat → List Char → List Char → List (List Char)
  | 0, _, acc => [acc.reverse]
  | _ + 1, [], acc => [acc.reverse]
  | fuel + 1, c :: rest, acc =>
    if jsIsSpace c then acc.reverse :: splitWsGo fuel (rest.dropWhile jsIsSpace) []
    else splitWsGo fuel rest (c :: acc)

/-- See `splitWsGo`; the fuel is an upper bound on the number of steps and is
never exhausted since every step consumes at least one character. -/
def splitWsL (s : List Char) : List (List Char) := splitWsGo s.length s []

/-- Length of a match of the separator regex `\n\s*\n` starting at the head of
the list: a line feed, then a greedy (backtracking) whitespace run ending at
its last contained line feed. Returns `none` when no match starts here. -/
def matchNNLen : List Char → Option Nat
  | '\n' :: rest =>
    let run := rest.takeWhile jsIsSpace
    match run.reverse.findIdx? (fun c => c = '\n') with
    | some i => some (run.length - i + 1)
    | none => none
  | _ => none

/-- `text.split(regex \n\s*\n)`: split at every non-overlapping leftmost match. -/
def splitNNGo : Nat → List Char → List Char → List (List Char)
  | 0, _, acc => [acc.reverse]
  | _ + 1, [], acc => [acc.reverse]
  | fuel + 1, c :: rest, acc =>
    match matchNNLen (c :: rest) with
    | some n => acc.reverse :: splitNNGo fuel ((c :: rest).drop n) []
    | none => splitNNGo fuel rest (c :: acc)

/-- Paragraph split used throughout the chunkers (`split(/\n\s*\n/)`). -/
def splitNNL (s : List Char) : List (List Char) := splitNNGo s.length s []

/-- Start offsets of the non-overlapping matches of `\n\s*\n` in a text
(`exec` loop over the paragraph-break section marker). -/
def nnIdxGo : Nat → Nat → List Char → List Nat
  | 0, _, _ => []
  | _ + 1, _, [] => []
  | fuel + 1, pos, c :: rest =>
    match matchNNLen (c :: rest) with
    | some n => pos :: nnIdxGo fuel (pos + n) ((c :: rest).drop n)
    | none => nnIdxGo fuel (pos + 1) rest

/-- All start offsets of `\n\s*\n` matches. -/
def nnIdxL (s : List Char) : List Nat := nnIdxGo s.length 0 s

/-- Count of non-overlapping occurrences of a literal pattern, as produced by
`(text.match(new RegExp(pattern, "g")) || []).length` when the pattern has no
regex metacharacters; an empty pattern matches at every position. -/
def countOccGo : Nat → List Char → List Char → Nat
  | 0, _, _ => 0
  | _ + 1, _, [] => 0
  | fuel + 1, needle, c :: rest =>
    if needle.isPrefixOf (c :: rest) then
      1 + countOccGo fuel needle ((c :: rest).drop needle.length)
    else countOccGo fuel needle rest

/-- See `countOccGo`. -/
def countOccL (needle hay : List Char) : Nat :=
  if needle.isEmpty then hay.length + 1 else countOccGo hay.length needle hay

/-- JavaScript `\w` word-character test (used for `\b` boundaries). -/
def isWordChar (c : Char) : Bool := c.isAlphanum || c = '_'

/-- One item of a linear regex pattern: a literal, an ordered alternation of
literals, a greedy character-class repetition with bounds, or a zero-width
look at the next character. This is enough to express every regex of the
source verbatim. -/
inductive RItem where
  | lit (ci : Bool) (cs : List Char)
  | alts (ci : Bool) (xs : List (List Char))
  | cls (p : Char → Bool) (lo : Nat) (hi : Option Nat)
  | look (ok : Option Char → Bool)

/-- Does the literal `cs` (with optional case folding) agree with the start of
the text? -/
def litAgrees (ci : Bool) : List Char → List Char → Bool
  | [], _ => true
  | _ :: _, [] => false
  | a :: as, b :: bs =>
    (if ci then a.toLower = b.toLower else a = b) && litAgrees ci as bs

/-- Backtracking matcher for a linear pattern against the start of a text,
returning the number of characters consumed by the leftmost-greedy match
attempt, with the same alternation order and greedy-then-backtrack class
semantics as the JavaScript engine. -/
def matchItems (items : List RItem) (s : List Char) : Option Nat :=
  match items with
  | [] => some 0
  | it :: rest =>
    match it with
    | .lit ci cs =>
      if litAgrees ci cs s then (matchItems rest (s.drop cs.length)).map (· + cs.length)
      else none
    | .look ok => if ok s.head? then matchItems rest s else none
    | .alts ci xs =>
      xs.findSome? fun x =>
        if litAgrees ci x s then (matchItems rest (s.drop x.length)).map (· + x.length)
        else none
    | .cls p lo hi =>
      let run := (s.takeWhile p).length
      let mx := min run (hi.getD run)
      ((List.range (mx + 1)).reverse).findSome? fun j =>
        if j < lo then none
        else (matchItems rest (s.drop j)).map (· + j)

/-- Does the pattern match anywhere in the text (`regex.test(text)` /
truthiness of `text.match(regex)` without the `g` flag)? -/
def hasMatch (items : List RItem) : List Char → Bool
  | [] => (matchItems items []).isSome
  | c :: rest => (matchItems items (c :: rest)).isSome || hasMatch items rest

/-- Number of matches found by a global regex (`text.match(re g-flag).length`):
non-overlapping, leftmost, zero-length matches advance by one character. -/
def scanCountGo (fuel : Nat) (items : List RItem) (s : List Char) : Nat :=
  match fuel, s with
  | 0, _ => 0
  | _ + 1, [] => 0
  | fuel + 1, c :: rest =>
    match matchItems items (c :: rest) with
    | some n => 1 + scanCountGo fuel items ((c :: rest).drop (max n 1))
    | none => scanCountGo fuel items rest

/-- See `scanCountGo`. -/
def scanCount (items : List RItem) (s : List Char) : Nat :=
  scanCountGo s.length items s

/-- Matched substrings of a global regex scan (`text.match(re with g) || []`),
optionally requiring a word boundary `\b` immediately before each match. -/
def scanMatchesGo (fuel : Nat) (items : List RItem) (needB : Bool) (prev : Option Char) (s : List Char) :
    List (List Char) :=
  match fuel, s with
  | 0, _ => []
  | _ + 1, [] => []
  | fuel + 1, c :: rest =>
    let bOK : Bool := !needB || (match prev with | none => true | some pc => !isWordChar pc)
    match (if bOK then matchItems items (c :: rest) else none) with
    | some n =>
      let k := max n 1
      (c :: rest).take k :: scanMatchesGo fuel items needB ((c :: rest).get? (k - 1)) ((c :: rest).drop k)
    | none => scanMatchesGo fuel items needB (some c) rest

/-- See `scanMatchesGo`. -/
def scanMatches (items : List RItem) (needB : Bool) (s : List Char) : List (List Char) :=
  scanMatchesGo s.length items needB none s

/-- JavaScript truthy-or on an optional number (`x || d`): `0` and a missing
value both fall through to the default. -/
def jsOrQ (x : Option ℚ) (d : ℚ) : ℚ :=
  match x with
  | some v => if v = 0 then d else v
  | none => d

/-- JavaScript truthy-or on an optional string: the empty string and a missing
value both fall through to the default. -/
def jsOrStr (x : Option String) (d : String) : String :=
  match x with
  | some v => if v = "" then d else v
  | none => d

/-- JavaScript truthy-or keeping the option (`a || b` where both are optional
strings). -/
def jsOrStrOpt (x y : Option String) : Option String :=
  match x with
  | some v => if v = "" then y else some v
  | none => y

/-- `Math.round` (round half toward positive infinity). -/
def jsRound (x : ℚ) : ℤ := ⌊x + 1 / 2⌋

/-- Models `Math.sqrt` on the rationals arising in this development: exact
whenever the (reduced) numerator and denominator are perfect squares, which
holds at every value the theorems below evaluate it on; the JavaScript code
computes a floating-point square root. Non-positive input is sent to `0`
(`calculateNorm` only ever applies it to sums of squares). -/
def ratSqrt (q : ℚ) : ℚ :=
  if q ≤ 0 then 0 else (Nat.sqrt q.num.toNat : ℚ) / (Nat.sqrt q.den : ℚ)

/-! ## Chunking module (source: the semantic chunker file)

Each JavaScript regex of the chunker is translated into a concrete scanner.
Patterns carrying the `m` flag are modelled line by line (the character class
`[A-Z\s]` technically lets a match run across a line break; no theorem below
depends on that corner). Stateful `lastIndex` behaviour of reused `g`-flagged
regex objects is not modelled; the evaluated inputs produce no match for those
patterns, where both semantics agree. -/

/-- `\$[\d,]+\.?\d*` — a dollar amount. -/
def dollarPat : List RItem :=
  [.lit false ['$'], .cls (fun c => c.isDigit || c = ',') 1 none,
   .cls (fun c => c = '.') 0 (some 1), .cls Char.isDigit 0 none]

/-- Case-insensitive word-list test (`/w1|w2|…/i.test(p)`). -/
def anySubCI (ws : List String) (p : List Char) : Bool :=
  ws.any fun w => hasSubL (strL w) (lowerL p)

/-- Email header line patterns `^From:\s.*$` etc.: the prefix followed by one
whitespace character. -/
def headerPrefixes : List (List Char) :=
  [strL "From:", strL "To:", strL "Subject:", strL "Date:", strL "CC:",
   strL "BCC:", strL "Reply-To:"]

/-- Does a line match the header pattern with the given prefix? -/
def lineMatchesHeader (p line : List Char) : Bool :=
  p.isPrefixOf line &&
    (match line.drop p.length with
     | c :: _ => jsIsSpace c
     | [] => false)

/-- All header lines, collected pattern by pattern as the source does. -/
def emailHeaderLines (t : List Char) : List (List Char) :=
  (headerPrefixes.map fun p => (splitLinesL t).filter (lineMatchesHeader p)).flatten

/-- `mainText` after `replace(pattern, "")` for every header pattern: each
matched line becomes empty (a line emptied by one pattern matches no other,
so the sequential replaces equal one combined pass). -/
def removeHeaderLines (t : List Char) : List Char :=
  joinLinesL ((splitLinesL t).map fun l =>
    if headerPrefixes.any (fun p => lineMatchesHeader p l) then [] else l)

/-- `financialPatterns.some(p => p.test(paragraph))`. -/
def emailFinancialTest (p : List Char) : Bool :=
  hasMatch dollarPat p ||
  anySubCI ["revenue", "profit", "loss", "income", "expense", "budget", "cost",
    "price", "fee", "payment"] p ||
  anySubCI ["quarterly", "monthly", "annual", "yearly", "fiscal"] p ||
  anySubCI ["earnings", "revenue", "sales", "income", "profit", "loss"] p

/-- `businessUpdatePatterns.some(p => p.test(paragraph))`. -/
def emailBusinessTest (p : List Char) : Bool :=
  anySubCI ["update", "announcement", "news", "progress", "status", "milestone"] p ||
  anySubCI ["launch", "release", "deployment", "implementation"] p ||
  anySubCI ["meeting", "conference", "event", "deadline"] p

/-- The three bullet-list line patterns (`^[\s]*[-*•]\s`, `^[\s]*\d+\.\s`,
`^[\s]*[a-z]\)\s`). -/
def bulletLinePats : List (List RItem) :=
  [[.cls jsIsSpace 0 none, .alts false [['-'], ['*'], ['•']], .cls jsIsSpace 1 (some 1)],
   [.cls jsIsSpace 0 none, .cls Char.isDigit 1 none, .lit false ['.'], .cls jsIsSpace 1 (some 1)],
   [.cls jsIsSpace 0 none, .cls (fun c => 'a' ≤ c && c ≤ 'z') 1 (some 1), .lit false [')'],
    .cls jsIsSpace 1 (some 1)]]

/-- `bulletPatterns.some(p => p.test(paragraph))` (multi-line anchors: any line). -/
def emailBulletTest (p : List Char) : Bool :=
  (splitLinesL p).any fun l => bulletLinePats.any fun pat => (matchItems pat l).isSome

/-- Case-insensitive prefix test (`/^w/i.test(p)`). -/
def startsCIL (w : String) (p : List Char) : Bool :=
  (lowerL (strL w)).isPrefixOf (lowerL p)

/-- `signaturePatterns.some(p => p.test(paragraph))`; `regards?` contributes the
prefix `Regard`, `Thanks?` the prefix `Thank`; the last two patterns are
case-sensitive in the source. -/
def emailSignatureTest (p : List Char) : Bool :=
  startsCIL "Best regard" p || startsCIL "Sincerely" p || startsCIL "Thank" p ||
  startsCIL "Regard" p || startsCIL "Cheers" p ||
  (strL "Sent from my").isPrefixOf p || (strL "This email was sent from").isPrefixOf p

/-- Paragraph classification of the email strategy. -/
def emailParagraphType (p : List Char) : String :=
  if emailFinancialTest p then "financial"
  else if emailBusinessTest p then "business"
  else if emailBulletTest p then "list"
  else if emailSignatureTest p then "signature"
  else "general"

/-- The paragraph-accumulation loop of `chunkEmailSemantically`: a type change
forces a boundary when the current chunk is non-empty; otherwise paragraphs
are appended while the 900-character target is respected. The current type is
updated only when a chunk is flushed, exactly as in the source. -/
def emailChunkLoop : List (List Char) → List Char → String → List (List Char) → List (List Char)
  | [], cc, _, acc => if 0 < (jsTrimL cc).length then acc ++ [jsTrimL cc] else acc
  | p :: ps, cc, ct, acc =>
    let tp := jsTrimL p
    if tp.length = 0 then emailChunkLoop ps cc ct acc
    else
      let pt := emailParagraphType tp
      if ct ≠ pt ∧ 0 < (jsTrimL cc).length then
        emailChunkLoop ps tp pt (acc ++ [jsTrimL cc])
      else
        let test := cc ++ (if cc.isEmpty then [] else strL "\n\n") ++ tp
        if test.length ≤ 900 then emailChunkLoop ps test ct acc
        else
          emailChunkLoop ps tp pt
            (if 0 < (jsTrimL cc).length then acc ++ [jsTrimL cc] else acc)

/-- `chunkEmailSemantically`. -/
def chunkEmailSemantically (text : String) : List String :=
  let t := strL text
  let headers := emailHeaderLines t
  let c0 := if 0 < headers.length then [joinLinesL headers] else []
  let mainText := removeHeaderLines t
  let paragraphs := (splitNNL mainText).filter fun p => 0 < (jsTrimL p).length
  let chunks := emailChunkLoop paragraphs [] "general" c0
  (chunks.filter fun c => 20 ≤ c.length).map ofL

/-- Character class `[A-Z0-9-]` under the `i` flag. -/
def isIdChar (c : Char) : Bool :=
  ('A' ≤ c && c ≤ 'Z') || ('a' ≤ c && c ≤ 'z') || c.isDigit || c = '-'

/-- `Contract\s+(Number|#|ID):?\s*[A-Z0-9-]+` (`gi`). -/
def idPat1 : List RItem :=
  [.lit true (strL "Contract"), .cls jsIsSpace 1 none,
   .alts true [strL "Number", strL "#", strL "ID"], .cls (fun c => c = ':') 0 (some 1),
   .cls jsIsSpace 0 none, .cls isIdChar 1 none]

/-- `Agreement\s+(Number|#|ID):?\s*[A-Z0-9-]+` (`gi`). -/
def idPat2 : List RItem :=
  [.lit true (strL "Agreement"), .cls jsIsSpace 1 none,
   .alts true [strL "Number", strL "#", strL "ID"], .cls (fun c => c = ':') 0 (some 1),
   .cls jsIsSpace 0 none, .cls isIdChar 1 none]

/-- `Reference:?\s*[A-Z0-9-]+` (`gi`). -/
def idPat3 : List RItem :=
  [.lit true (strL "Reference"), .cls (fun c => c = ':') 0 (some 1),
   .cls jsIsSpace 0 none, .cls isIdChar 1 none]

/-- One contract section found in the text; `stop` renders the source's `end`
field (a Lean keyword). -/
structure CSection where
  start : Nat
  stop : Nat
  type : String
  content : List Char
deriving Repr, DecidableEq

/-- Sort with a JavaScript comparator, modelled as a stable insertion sort
(`Array.prototype.sort`; for a consistent comparator this coincides with any
stable sort, which ECMAScript mandates). -/
def jsSortBy {α : Type} (cmp : α → α → ℚ) (l : List α) : List α :=
  @List.insertionSort α (fun a b => cmp a b ≤ 0)
    (fun a b => inferInstanceAs (Decidable (cmp a b ≤ 0))) l

/-- Optional single character item. -/
def optChar (c : Char) : RItem := .cls (fun x => x = c) 0 (some 1)

/-- Optional `s`/`S` (the `S?` of plural section headers). -/
def optS : RItem := .cls (fun c => c = 'S' || c = 's') 0 (some 1)

/-- One or more whitespace. -/
def wsPlus : RItem := .cls jsIsSpace 1 none

/-- Zero or more whitespace. -/
def wsStar : RItem := .cls jsIsSpace 0 none

/-- The twelve section-header patterns of the contract chunker
(`^PARTIES?:?\s*$` and friends, flags `gim`), as full-line matchers paired
with their section type, in source order. -/
def contractSecPats : List (String × List RItem) :=
  [("parties", [.lit true (strL "PARTIE"), optS, optChar ':', wsStar]),
   ("scope", [.lit true (strL "SCOPE"), wsPlus, .lit true (strL "OF"), wsPlus,
     .lit true (strL "WORK"), optChar ':', wsStar]),
   ("terms", [.lit true (strL "TERM"), optS, wsPlus, .lit true (strL "AND"), wsPlus,
     .lit true (strL "CONDITION"), optS, optChar ':', wsStar]),
   ("payment", [.lit true (strL "PAYMENT"), wsPlus, .lit true (strL "TERM"), optS,
     optChar ':', wsStar]),
   ("financial", [.lit true (strL "FINANCIAL"), wsPlus, .lit true (strL "TERM"), optS,
     optChar ':', wsStar]),
   ("amendment", [.lit true (strL "AMENDMENT"), optChar ':', wsStar]),
   ("timeline", [.lit true (strL "TIMELINE"), optChar ':', wsStar]),
   ("provisions", [.lit true (strL "PROVISION"), optS, optChar ':', wsStar]),
   ("termination", [.lit true (strL "TERMINATION"), optChar ':', wsStar]),
   ("signatures", [.lit true (strL "SIGNATURE"), optS, optChar ':', wsStar]),
   ("governing", [.lit true (strL "GOVERNING"), wsPlus, .lit true (strL "LAW"),
     optChar ':', wsStar]),
   ("force_majeure", [.lit true (strL "FORCE"), wsPlus, .lit true (strL "MAJEURE"),
     optChar ':', wsStar])]

/-- Does the pattern match the entire line (anchors `^…$`)? -/
def fullLineMatch (pat : List RItem) (line : List Char) : Bool :=
  match matchItems pat line with
  | some n => n = line.length
  | none => false

/-- Collect sections pattern by pattern (`matchAll` per pattern), each with
`stop` provisionally at the text end, as in the source. -/
def collectSectionsRaw (t : List Char) : List CSection :=
  (contractSecPats.map fun tp =>
    ((linesWithPos t).filter fun pl => fullLineMatch tp.2 pl.2).map fun pl =>
      { start := pl.1, stop := t.length, type := tp.1, content := t.drop pl.1 }).flatten

/-- After sorting by start offset, clip every section at the start of the next
one. -/
def adjustSecEnds (t : List Char) : List CSection → List CSection
  | [] => []
  | [x] => [x]
  | x :: y :: rest =>
    { x with stop := y.start, content := (t.take y.start).drop x.start } ::
      adjustSecEnds t (y :: rest)

/-- Sections of a contract text, sorted and clipped. -/
def collectSections (t : List Char) : List CSection :=
  adjustSecEnds t
    (jsSortBy (fun a b => ((a.start : ℚ) - (b.start : ℚ))) (collectSectionsRaw t))

/-- `financialPatterns.join("|")` stringifies the RegExp objects, so the
combined pattern literally contains the slashes and flags; its five
alternatives are translated verbatim (they essentially never match prose). -/
def contractFinJoinedTest (t : List Char) : Bool :=
  hasMatch [.lit false (strL "/$"), .cls (fun c => c.isDigit || c = ',') 1 none,
    .cls (fun c => c = '.') 0 (some 1), .cls Char.isDigit 0 none, .lit false (strL "/g")] t ||
  hasMatch [.lit false (strL "/per"), wsPlus,
    .alts false [strL "month", strL "year", strL "quarter", strL "hour", strL "day"],
    .lit false (strL "/gi")] t ||
  hasMatch [.lit false (strL "/payment"), wsPlus,
    .alts false [strL "terms", strL "due", strL "schedule"], .lit false (strL "/gi")] t ||
  hasMatch [.lit false (strL "/late"), wsPlus, .lit false (strL "payment"), wsPlus,
    .lit false (strL "fee/gi")] t ||
  hasMatch [.lit false (strL "/interest"), wsPlus, .lit false (strL "rate/gi")] t

/-- `timelinePatterns.join("|")`, with the same RegExp-stringification effect. -/
def contractTimeJoinedTest (t : List Char) : Bool :=
  hasMatch [.lit false ['/'], .cls Char.isDigit 4 (some 4), .lit false ['-'],
    .cls Char.isDigit 2 (some 2), .lit false ['-'], .cls Char.isDigit 2 (some 2),
    .lit false (strL "/g")] t ||
  hasMatch [.lit false (strL "/effective"), wsPlus, .lit false (strL "date/gi")] t ||
  hasMatch [.lit false (strL "/expiration"), wsPlus, .lit false (strL "date/gi")] t ||
  hasMatch [.lit false (strL "/deadline/gi")] t ||
  hasMatch [.lit false (strL "/milestone/gi")] t ||
  hasMatch [.lit false (strL "/delivery"), wsPlus, .lit false (strL "date/gi")] t

/-- `type.charAt(0).toUpperCase() + type.slice(1)`. -/
def capFirst (s : String) : String :=
  match strL s with
  | [] => ""
  | c :: rest => ofL (c.toUpper :: rest)

/-- Paragraph loop splitting an over-long contract section (the `\n` joiner is
used whenever the accumulated chunk contains a colon, as in the source). -/
def contractBigLoop : List (List Char) → List Char → List (List Char) → List (List Char)
  | [], cc, acc => if 0 < (jsTrimL cc).length then acc ++ [jsTrimL cc] else acc
  | p :: ps, cc, acc =>
    let test := cc ++ (if hasSubL [':'] cc then ['\n'] else []) ++ p
    if test.length ≤ 900 then contractBigLoop ps test acc
    else contractBigLoop ps p (if 0 < (jsTrimL cc).length then acc ++ [jsTrimL cc] else acc)

/-- Processing of one clipped contract section. -/
def processContractSection (sec : CSection) : List (List Char) :=
  let content := jsTrimL sec.content
  if content.length = 0 then []
  else if (sec.type = "financial" || sec.type = "payment") && contractFinJoinedTest content then
    [strL "Financial Terms:\n" ++ content]
  else if sec.type = "timeline" && contractTimeJoinedTest content then
    [strL "Timeline:\n" ++ content]
  else if sec.type = "amendment" then
    [strL "Amendment Details:\n" ++ content]
  else if content.length ≤ 900 then
    [strL (capFirst sec.type) ++ strL ":\n" ++ content]
  else
    contractBigLoop (splitNNL content) (strL (capFirst sec.type) ++ strL ":\n") []

/-- Paragraph-based fallback of the contract chunker (no section detected). -/
def contractFallbackLoop : List (List Char) → List Char → List (List Char) → List (List Char)
  | [], cc, acc => if 0 < (jsTrimL cc).length then acc ++ [jsTrimL cc] else acc
  | p :: ps, cc, acc =>
    let test := cc ++ (if cc.isEmpty then [] else strL "\n\n") ++ p
    if test.length ≤ 900 then contractFallbackLoop ps test acc
    else contractFallbackLoop ps p (if 0 < (jsTrimL cc).length then acc ++ [jsTrimL cc] else acc)

/-- `chunkContractSemantically`. -/
def chunkContractSemantically (text : String) : List String :=
  let t := strL text
  let ids := scanMatches idPat1 false t ++ scanMatches idPat2 false t ++
    scanMatches idPat3 false t
  let c0 := if 0 < ids.length then [joinLinesL ids] else []
  let chunks := c0 ++ ((collectSections t).map processContractSection).flatten
  let chunks := if chunks.length = 0 then contractFallbackLoop (splitNNL t) [] [] else chunks
  (chunks.filter fun c => 20 ≤ c.length).map ofL

/-- Uppercase letter test (`[A-Z]`, no `i` flag). -/
def isUpper (c : Char) : Bool := 'A' ≤ c && c ≤ 'Z'

/-- Line predicates for the fourteen section markers of `chunkTextEnhanced`,
in source order; the paragraph-break marker is handled separately via
`nnIdxL`. Prefix markers test the line start, the others the full line. -/
def enhLinePredsA : List (List Char → Bool) :=
  [fun l => fullLineMatch [.cls (fun c => isUpper c || jsIsSpace c) 1 none, .lit false [':']] l,
   fun l => fullLineMatch [.cls isUpper 1 (some 1), .cls (fun c => isUpper c || jsIsSpace c) 1 none] l,
   fun l => (matchItems [.cls Char.isDigit 1 none, .lit false ['.'], .cls jsIsSpace 1 (some 1)] l).isSome,
   fun l => (matchItems [.lit false ['-'], .cls jsIsSpace 1 (some 1)] l).isSome,
   fun l => (matchItems [.lit false ['*'], .cls jsIsSpace 1 (some 1)] l).isSome,
   fun l => (matchItems [.cls (fun c => 'a' ≤ c && c ≤ 'z') 1 (some 1), .lit false [')'],
     .cls jsIsSpace 1 (some 1)] l).isSome,
   fun l => (matchItems [.cls Char.isDigit 1 none, .lit false [')'], .cls jsIsSpace 1 (some 1)] l).isSome,
   fun l => (matchItems [.lit true (strL "Invoice"), .cls jsIsSpace 1 (some 1), .lit false ['#']] l).isSome,
   fun l => (matchItems [.lit true (strL "Contract"), .cls jsIsSpace 1 (some 1), .lit false ['#']] l).isSome,
   fun l => (matchItems [.lit true (strL "Report"), .cls jsIsSpace 1 (some 1), .lit false ['#']] l).isSome,
   fun l => (matchItems [.lit true (strL "Reference:"), .cls jsIsSpace 1 (some 1)] l).isSome,
   fun l => (matchItems [.lit true (strL "Account"), .cls jsIsSpace 1 (some 1), .lit false ['#']] l).isSome,
   fun l => (matchItems [.lit true (strL "Order"), .cls jsIsSpace 1 (some 1), .lit false ['#']] l).isSome]

/-- Line predicates for the two table-structure markers (`^\s*\|` and
`^\s*[-=]+\s*$`), which follow the paragraph-break marker in source order. -/
def enhLinePredsB : List (List Char → Bool) :=
  [fun l => (matchItems [wsStar, .lit false ['|']] l).isSome,
   fun l => fullLineMatch [wsStar, .cls (fun c => c = '-' || c = '=') 1 none, wsStar] l]

/-- Match offsets of one line-anchored marker. -/
def lineIdx (pred : List Char → Bool) (t : List Char) : List Nat :=
  ((linesWithPos t).filter fun pl => pred pl.2).map (·.1)

/-- All candidate boundary offsets, marker by marker in source order. -/
def enhMarkerIdx (t : List Char) : List Nat :=
  (enhLinePredsA.map fun p => lineIdx p t).flatten ++ nnIdxL t ++
    (enhLinePredsB.map fun p => lineIdx p t).flatten

/-- Keep positions `> 0`, dropping repeats (`processedPositions`). -/
def dedupPos : List Nat → List Nat → List Nat
  | [], _ => []
  | p :: ps, seen =>
    if 0 < p ∧ ¬ seen.contains p then p :: dedupPos ps (p :: seen)
    else dedupPos ps seen

/-- Remove boundaries closer than the minimum section size (50). -/
def filterBndsGo : List Nat → Nat → List Nat
  | [], _ => []
  | b :: bs, last => if 50 ≤ b - last then b :: filterBndsGo bs b else filterBndsGo bs last

/-- Sorted, distance-filtered boundary list (`filteredBoundaries`). -/
def enhBoundaries (t : List Char) : List Nat :=
  let sorted := jsSortBy (fun (a b : ℕ) => (a : ℚ) - (b : ℚ))
    (0 :: dedupPos (enhMarkerIdx t) [] ++ [t.length])
  match sorted with
  | [] => []
  | b :: bs => b :: filterBndsGo bs b

/-- `replace(/\n{3,}/g, "\n\n")`: collapse runs of three or more line feeds. -/
def collapseNLGo : Nat → List Char → List Char
  | 0, _ => []
  | _ + 1, [] => []
  | fuel + 1, c :: rest =>
    if c = '\n' then
      let run := (c :: rest).takeWhile (fun x => x = '\n')
      if 3 ≤ run.length then '\n' :: '\n' :: collapseNLGo fuel ((c :: rest).drop run.length)
      else c :: collapseNLGo fuel rest
    else c :: collapseNLGo fuel rest

/-- See `collapseNLGo`. -/
def collapseNL (s : List Char) : List Char := collapseNLGo s.length s

/-- `replace(/\s{2,}/g, " ")`: collapse whitespace runs of length at least two
to a single space. -/
def collapseWsGo : Nat → List Char → List Char
  | 0, _ => []
  | _ + 1, [] => []
  | fuel + 1, c :: rest =>
    if jsIsSpace c then
      let run := (c :: rest).takeWhile jsIsSpace
      if 2 ≤ run.length then ' ' :: collapseWsGo fuel ((c :: rest).drop run.length)
      else c :: collapseWsGo fuel rest
    else c :: collapseWsGo fuel rest

/-- See `collapseWsGo`. -/
def collapseWs (s : List Char) : List Char := collapseWsGo s.length s

/-- `split(/(?<=[.!?])\s+/)`: sentence split after a terminator, the greedy
whitespace run being consumed as separator. -/
def sentSplitGo : Nat → Option Char → List Char → List Char → List (List Char)
  | 0, _, _, acc => [acc.reverse]
  | _ + 1, _, [], acc => [acc.reverse]
  | fuel + 1, prev, c :: rest, acc =>
    if jsIsSpace c ∧ (prev = some '.' ∨ prev = some '!' ∨ prev = some '?') then
      let run := (c :: rest).takeWhile jsIsSpace
      acc.reverse :: sentSplitGo fuel none ((c :: rest).drop run.length) []
    else sentSplitGo fuel (some c) rest (c :: acc)

/-- See `sentSplitGo`. -/
def sentSplit (s : List Char) : List (List Char) := sentSplitGo s.length none s []

/-- Sentence-accumulation loop shared by `splitLargeSectionSemantically` and
`fallbackChunkingSemantically`; `currentLength` ignores the joining spaces,
exactly as in the source. -/
def sentLoop (maxLen : Nat) : List (List Char) → List Char → Nat → List (List Char) → List (List Char)
  | [], cc, _, acc => if 0 < (jsTrimL cc).length then acc ++ [jsTrimL cc] else acc
  | sen :: ss, cc, clen, acc =>
    if maxLen < clen + sen.length ∧ 0 < cc.length then
      sentLoop maxLen ss sen sen.length (acc ++ [jsTrimL cc])
    else
      sentLoop maxLen ss (cc ++ (if cc.isEmpty then [] else [' ']) ++ sen)
        (clen + sen.length) acc

/-- `splitLargeSectionSemantically`. -/
def splitLargeSectionSemantically (sectionText : List Char) (maxLen : Nat) : List (List Char) :=
  sentLoop maxLen (sentSplit sectionText) [] 0 []

/-- `fallbackChunkingSemantically`. -/
def fallbackChunkingSemantically (t : List Char) (maxLen : Nat) : List (List Char) :=
  sentLoop maxLen (sentSplit t) [] 0 []

/-- Chunks produced from one boundary span of `chunkTextEnhanced`. -/
def enhSpanChunks (t : List Char) (st en : Nat) : List (List Char) :=
  let sectionText := jsTrimL ((t.take en).drop st)
  if sectionText.length = 0 then []
  else
    let cleaned := jsTrimL (collapseWs (collapseNL sectionText))
    if cleaned.length = 0 then []
    else if cleaned.length ≤ 900 then [cleaned]
    else splitLargeSectionSemantically cleaned 900

/-- Post-processing shared state loop: drop chunks under 20 characters, drop
case-folded trimmed duplicates, drop chunks whose non-whitespace ratio is
below 0.3. -/
def postProcessGo : List (List Char) → List (List Char) → List (List Char) → List (List Char)
  | [], _, acc => acc
  | c :: cs, seen, acc =>
    if c.length < 20 then postProcessGo cs seen acc
    else
      let key := jsTrimL (lowerL c)
      if seen.contains key then postProcessGo cs seen acc
      else
        let meaningful := (c.filter fun ch => !jsIsSpace ch).length
        if (meaningful : ℚ) < (c.length : ℚ) * (3 / 10) then postProcessGo cs seen acc
        else postProcessGo cs (key :: seen) (acc ++ [c])

/-- `postProcessChunks` (the `chunkSize` parameter is unused, as in the source). -/
def postProcessChunks (chunks : List (List Char)) (chunkSize : Nat) : List (List Char) :=
  postProcessGo chunks [] []

/-- `chunkTextEnhanced`. -/
def chunkTextEnhanced (text : String) : List String :=
  let t := strL text
  let bnds := enhBoundaries t
  let chunks := ((bnds.zip bnds.tail).map fun p => enhSpanChunks t p.1 p.2).flatten
  let chunks := if chunks.length = 0 then fallbackChunkingSemantically t 900 else chunks
  (postProcessChunks chunks 900).map ofL

/-- `detectDocumentType`. -/
def detectDocumentType (text filename : String) : String :=
  let textLower := jsLower text
  let filenameLower := jsLower filename
  if (strL ".eml").isSuffixOf (strL filenameLower) ||
      (jsIncludes textLower "from:" && jsIncludes textLower "to:" &&
        jsIncludes textLower "subject:") then "email"
  else if jsIncludes textLower "contract" || jsIncludes textLower "agreement" then
    if jsIncludes textLower "amendment" || jsIncludes textLower "addendum" then
      "contract_amendment"
    else "contract"
  else if jsIncludes textLower "invoice" || jsIncludes filenameLower "invoice" then "invoice"
  else if jsIncludes textLower "financial" || jsIncludes textLower "revenue" ||
      jsIncludes textLower "profit" then "financial"
  else "other"

/-- `chunkTextSemantically`: strategy dispatch on the (possibly detected)
document type; a missing or empty `documentType` argument falls through to
detection (`documentType || detectDocumentType(...)`). -/
def chunkTextSemantically (text filename : String) (documentType : Option String) : List String :=
  let detectedType := jsOrStr documentType (detectDocumentType text filename)
  if detectedType = "email" then chunkEmailSemantically text
  else if detectedType = "contract" ∨ detectedType = "contract_amendment" then
    chunkContractSemantically text
  else chunkTextEnhanced text

/-! ## Vector store (source: `src/lib/vector-store.ts`)

The store's mutable fields become a `StoreState` record threaded through the
operations; `Date.now()` is the explicit `now` argument; the embedding
provider is a function parameter returning `Except` (promise rejection);
persistence (`saveDocuments`/`loadDocuments`) is outside the model. The query
cache key, a template string over `(query, limit, adjustedMinSimilarity,
serialized filter)` in the source, is modelled as the corresponding tuple. -/

/-- `financials` sub-object of the structured metadata. -/
structure Financials where
  amounts : List ℚ := []
  currency : Option String := none
deriving Repr, DecidableEq

/-- `structuredMetadata` projection stored on a vector record. -/
structure SMeta where
  documentType : Option String := none
  keywords : List String := []
  date : Option String := none
  people : List String := []
  organizations : List String := []
  financials : Option Financials := none
deriving Repr, DecidableEq

/-- The untyped `metadata` blob, modelled with exactly the fields this code
reads from it. -/
structure Metadata where
  filename : Option String := none
  timestamp : Option ℚ := none
  documentType : Option String := none
  keywords : Option (List String) := none
  date : Option String := none
  summary : Option String := none
  people : Option (List String) := none
  organizations : Option (List String) := none
  financials : Option Financials := none
deriving Repr, DecidableEq

/-- `VectorDocument`. -/
structure VectorDocument where
  id : String
  text : String
  metadata : Metadata
  embedding : List ℚ
  norm : Option ℚ := none
  timestamp : Option ℚ := none
  structuredMetadata : Option SMeta := none
deriving Repr, DecidableEq

/-- `VectorSearchResult`. -/
structure VectorSearchResult where
  id : String
  text : String
  metadata : Metadata
  similarity : ℚ
  distance : ℚ
deriving Repr, DecidableEq

/-- `dateRange` of a metadata filter; `stop` renders the source's `end` field
(a Lean keyword). -/
structure DateRange where
  start : Option String := none
  stop : Option String := none
deriving Repr, DecidableEq

/-- The optional metadata filter of `search`. -/
structure MetadataFilter where
  documentType : Option (List String) := none
  keywords : Option (List String) := none
  dateRange : Option DateRange := none
deriving Repr, DecidableEq

/-- A cache entry (value plus creation timestamp). -/
structure CacheEntry (α : Type) where
  value : α
  timestamp : ℚ
deriving Repr, DecidableEq

/-- Query-cache key: the tuple serialized into the template-string key of the
source. -/
structure QueryKey where
  query : String
  limit : ℕ
  minSim : ℚ
  filter : Option MetadataFilter
deriving Repr, DecidableEq

/-- The store's mutable state. -/
structure StoreState where
  documents : List VectorDocument
  queryCache : List (QueryKey × CacheEntry (List VectorSearchResult))
  embeddingCache : List (String × CacheEntry (List ℚ))
deriving Repr, DecidableEq

/-- `cacheTimeout`: five minutes in milliseconds. -/
def cacheTimeout : ℚ := 5 * 60 * 1000

/-- `calculateNorm`: L2 norm of a vector. -/
def calculateNorm (v : List ℚ) : ℚ :=
  ratSqrt ((v.map fun x => x * x).sum)

/-- `cosineSimilarity` with optional precomputed norms (`normA ||
calculateNorm(a)` is JavaScript truthy-or, so a zero norm is recomputed). -/
def cosineSimilarity (a b : List ℚ) (normA normB : Option ℚ) : ℚ :=
  if a.length ≠ b.length then 0
  else
    let dotProduct := ((a.zip b).map fun p => p.1 * p.2).sum
    let finalNormA := jsOrQ normA (calculateNorm a)
    let finalNormB := jsOrQ normB (calculateNorm b)
    if finalNormA = 0 ∨ finalNormB = 0 then 0
    else dotProduct / (finalNormA * finalNormB)

/-- `isCacheValid`. -/
def isCacheValid (now ts : ℚ) : Bool := decide (now - ts < cacheTimeout)

/-- `Map.get`, with the map as an association list in insertion order. -/
def lookupAssoc {κ α : Type} [DecidableEq κ] (l : List (κ × α)) (k : κ) : Option α :=
  (l.find? fun p => decide (p.1 = k)).map (·.2)

/-- `Map.set`: overwrite in place, else append (insertion order preserved). -/
def setAssoc {κ α : Type} [DecidableEq κ] (l : List (κ × α)) (k : κ) (v : α) : List (κ × α) :=
  if (l.find? fun p => decide (p.1 = k)).isSome then
    l.map fun p => if p.1 = k then (k, v) else p
  else l ++ [(k, v)]

/-- `cleanCache` / `cleanEmbeddingCache`: delete the expired entries. -/
def sweepCache {κ α : Type} (now : ℚ) (cache : List (κ × CacheEntry α)) :
    List (κ × CacheEntry α) :=
  cache.filter fun p => isCacheValid now p.2.timestamp

/-- The miss path of `getCachedEmbedding`: ask the provider, cache the result,
sweep the cache past 50 entries. A provider failure propagates (to be caught
at the `search` boundary). -/
def getFreshEmbedding (embedQuery : String → Except String (List ℚ)) (now : ℚ)
    (s : StoreState) (query : String) : Except String (List ℚ × StoreState) :=
  match embedQuery query with
  | .error e => .error e
  | .ok embedding =>
    let ec := setAssoc s.embeddingCache query ⟨embedding, now⟩
    let ec := if 50 < ec.length then sweepCache now ec else ec
    .ok (embedding, { s with embeddingCache := ec })

/-- `getCachedEmbedding`. -/
def getCachedEmbedding (embedQuery : String → Except String (List ℚ)) (now : ℚ)
    (s : StoreState) (query : String) : Except String (List ℚ × StoreState) :=
  match lookupAssoc s.embeddingCache query with
  | some e =>
    if isCacheValid now e.timestamp then .ok (e.value, s)
    else getFreshEmbedding embedQuery now s query
  | none => getFreshEmbedding embedQuery now s query

/-- `calculateExactMatchBoost`. The occurrence count builds a regex from the
query text; it is modelled as a literal count, which agrees whenever the query
has no regex metacharacters. -/
def calculateExactMatchBoost (query text : String) : ℚ :=
  let queryLower := jsLower query
  let textLower := jsLower text
  if jsIncludes textLower queryLower then
    let occurrences := countOccL (strL queryLower) (strL textLower)
    min 1 ((occurrences : ℚ) * (3 / 10))
  else
    let queryWords := (splitWsL (strL queryLower)).filter fun w => 2 < w.length
    let textWords := splitWsL (strL textLower)
    let wordMatches := (queryWords.filter fun w => textWords.contains w).length
    if 0 < queryWords.length then
      ((wordMatches : ℚ) / (queryWords.length : ℚ)) * (1 / 2)
    else 0

/-- First index of a substring (`indexOf`), `none` when absent. -/
def idxOfSubGo : Nat → Nat → List Char → List Char → Option Nat
  | 0, _, _, _ => none
  | _ + 1, pos, needle, [] => if needle.isEmpty then some pos else none
  | fuel + 1, pos, needle, c :: rest =>
    if needle.isPrefixOf (c :: rest) then some pos
    else idxOfSubGo fuel (pos + 1) needle rest

/-- See `idxOfSubGo`. -/
def idxOfSub (needle hay : List Char) : Option Nat :=
  idxOfSubGo (hay.length + 1) 0 needle hay

/-- `[A-Z\s]` under the `i` flag: a letter or whitespace. -/
def isLetterOrWs (c : Char) : Bool :=
  ('A' ≤ c && c ≤ 'Z') || ('a' ≤ c && c ≤ 'z') || jsIsSpace c

/-- Items for `queryLower.replace(/\s+/g, "\\s+")`: the query's words joined
by mandatory whitespace. -/
def qSeqItems (q : List Char) : List RItem :=
  List.intersperse wsPlus ((splitWsL q).map fun w => RItem.lit true w)

/-- Split on a literal single character (`String.split(c)`). -/
def splitCharL (ch : Char) : List Char → List (List Char)
  | [] => [[]]
  | c :: rest =>
    if c = ch then [] :: splitCharL ch rest
    else
      match splitCharL ch rest with
      | [] => [[c]]
      | l :: ls => (c :: l) :: ls

/-- Items for `queryLower.split(" ").join("[A-Z\\s]*")`. -/
def qJoinItems (q : List Char) : List RItem :=
  List.intersperse (RItem.cls isLetterOrWs 0 none)
    ((splitCharL ' ' q).map fun w => RItem.lit true w)

/-- The three section-header patterns of `extractRelevantSection`, built from
the lower-cased query (modelled line by line, as for the other `m`-flagged
regexes). The second pattern needs only a line prefix (no `$`). -/
def relSecPatterns (queryLower : List Char) : List (List RItem × Bool) :=
  [([.cls isLetterOrWs 0 none] ++ qSeqItems queryLower ++
      [.cls isLetterOrWs 0 none, optChar ':'], true),
   ([.cls isLetterOrWs 0 none] ++ qSeqItems queryLower ++
      [.cls isLetterOrWs 0 none, .lit false [':']], false),
   ([.cls isLetterOrWs 0 none] ++ qJoinItems queryLower ++
      [.cls isLetterOrWs 0 none, optChar ':'], true)]

/-- First line (offset, matched length) for a pattern; full-line match when
`full` is set, else a line-prefix match. -/
def findPatternLine (pat : List RItem) (full : Bool) (t : List Char) : Option (Nat × Nat) :=
  (linesWithPos t).findSome? fun pl =>
    match matchItems pat pl.2 with
    | some n => if full then (if n = pl.2.length then some (pl.1, n) else none) else some (pl.1, n)
    | none => none

/-- The next-section-header pattern `^[A-Z\s]+:?\s*$` (case-sensitive). -/
def nextSectionLine (t : List Char) (fromPos : Nat) : Option Nat :=
  ((linesWithPos t).filter fun pl => fromPos ≤ pl.1).findSome? fun pl =>
    if fullLineMatch [.cls (fun c => isUpper c || jsIsSpace c) 1 none, optChar ':', wsStar] pl.2
    then some pl.1 else none

/-- Split on `/[.!?]\s+/` (the separator swallows the terminator, unlike the
look-behind split of the chunker). -/
def termSplitGo : Nat → List Char → List Char → List (List Char)
  | 0, _, acc => [acc.reverse]
  | _ + 1, [], acc => [acc.reverse]
  | fuel + 1, c :: rest, acc =>
    if (c = '.' || c = '!' || c = '?') && (match rest with | r :: _ => jsIsSpace r | [] => false) then
      let run := rest.takeWhile jsIsSpace
      acc.reverse :: termSplitGo fuel (rest.drop run.length) []
    else termSplitGo fuel rest (c :: acc)

/-- See `termSplitGo`. -/
def termSplitL (s : List Char) : List (List Char) := termSplitGo s.length s []

/-- `extractRelevantSection`. -/
def extractRelevantSection (query text : String) : String :=
  let queryLower := strL (jsLower query)
  let textLower := strL (jsLower text)
  let t := strL text
  let viaSection :=
    (relSecPatterns queryLower).findSome? fun pf =>
      match findPatternLine pf.1 pf.2 t with
      | some (sectionStart, headerLen) =>
        let sectionEnd := (nextSectionLine t (sectionStart + headerLen)).getD t.length
        let sectionText := jsTrimL ((t.take sectionEnd).drop sectionStart)
        if 0 < sectionText.length then some (ofL sectionText) else none
      | none => none
  match viaSection with
  | some sec => sec
  | none =>
    match idxOfSub queryLower textLower with
    | some queryIndex =>
      let contextStart := queryIndex - 500
      let contextEnd := min t.length (queryIndex + queryLower.length + 500)
      let contextText := jsTrimL ((t.take contextEnd).drop contextStart)
      let sentences := termSplitL contextText
      if 1 < sentences.length then
        let relevantSentences := sentences.filter fun sen => hasSubL queryLower (lowerL sen)
        if 0 < relevantSentences.length then
          ofL (List.intercalate (strL ". ") relevantSentences ++ ['.'])
        else ofL contextText
      else ofL contextText
    | none => text

/-- `calculateDynamicSimilarity`: length-adaptive similarity floor. -/
def calculateDynamicSimilarity (query : String) : ℚ :=
  let queryLength := (splitWsL (strL (jsTrim query))).length
  if queryLength ≤ 2 then 3 / 5
  else if queryLength ≤ 4 then 2 / 5
  else if queryLength ≤ 8 then 3 / 10
  else 1 / 5

/-- The effective similarity floor of `search`
(`minSimilarity || this.calculateDynamicSimilarity(query)`). -/
def adjustedMinSimilarity (query : String) (minSimilarity : Option ℚ) : ℚ :=
  jsOrQ minSimilarity (calculateDynamicSimilarity query)

/-- `structuredMeta?.documentType`. -/
def smDocumentType (doc : VectorDocument) : Option String :=
  match doc.structuredMetadata with
  | some sm => sm.documentType
  | none => none

/-- `structuredMeta?.date`. -/
def smDate (doc : VectorDocument) : Option String :=
  match doc.structuredMetadata with
  | some sm => sm.date
  | none => none

/-- `structuredMeta?.keywords || metadata?.keywords || []` (note that an empty
array is truthy in JavaScript, so a present-but-empty keyword list is used). -/
def docKeywordsOf (doc : VectorDocument) : List String :=
  match doc.structuredMetadata with
  | some sm => sm.keywords
  | none => doc.metadata.keywords.getD []

/-- Date value used in `new Date(s)` comparisons, for the ISO `YYYY-MM-DD`
strings this repository stores; any other shape gives an invalid date whose
comparisons are all false, modelled by `none`. The encoding is strictly
monotone in the calendar date, which is all the comparisons observe. -/
def jsDateValue (s : String) : Option ℚ :=
  match strL s with
  | [y1, y2, y3, y4, '-', m1, m2, '-', d1, d2] =>
    if [y1, y2, y3, y4, m1, m2, d1, d2].all Char.isDigit then
      some ((((y1.toNat - 48) * 1000 + (y2.toNat - 48) * 100 + (y3.toNat - 48) * 10 +
        (y4.toNat - 48)) * 10000 + ((m1.toNat - 48) * 10 + (m2.toNat - 48)) * 100 +
        ((d1.toNat - 48) * 10 + (d2.toNat - 48)) : ℕ) : ℚ)
    else none
  | _ => none

/-- Comparison of two optional date values: false when either is invalid
(NaN semantics). -/
def optLt (a b : Option ℚ) : Bool :=
  match a, b with
  | some x, some y => decide (x < y)
  | _, _ => false

/-- `matchesMetadataFilter`: the hybrid document-type / keyword / date-range
gate. -/
def matchesMetadataFilter (doc : VectorDocument) (filter : MetadataFilter) : Bool :=
  let typeOK :=
    match filter.documentType with
    | none => true
    | some types =>
      if types.isEmpty then true
      else
        match jsOrStrOpt (smDocumentType doc) doc.metadata.documentType with
        | none => false
        | some d0 =>
          let docType := jsLower d0
          if docType = "" then false
          else types.any fun ty =>
            jsLower ty = docType || jsIncludes docType (jsLower ty)
  let keywordsOK :=
    match filter.keywords with
    | none => true
    | some kws =>
      if kws.isEmpty then true
      else
        let docKeywords := docKeywordsOf doc
        let docTextLower := jsLower (jsOrStr doc.metadata.summary "")
        kws.any fun keyword =>
          let keywordLower := jsLower keyword
          docKeywords.any (fun dk => jsIncludes (jsLower dk) keywordLower) ||
            jsIncludes docTextLower keywordLower
  let dateOK :=
    match filter.dateRange with
    | none => true
    | some dr =>
      match jsOrStrOpt (smDate doc) doc.metadata.date with
      | none => true
      | some dd =>
        if dd = "" then true
        else
          let docDateObj := jsDateValue dd
          let startOK :=
            match dr.start with
            | none => true
            | some st => if st = "" then true else ¬ optLt docDateObj (jsDateValue st)
          let stopOK :=
            match dr.stop with
            | none => true
            | some en => if en = "" then true else ¬ optLt (jsDateValue en) docDateObj
          startOK && stopOK
  typeOK && keywordsOK && dateOK

/-- The per-record body of the scoring loop in `search`: metadata gate, cosine
similarity blended 90/10 with the lexical boost and clamped above at 1, strict
floor comparison, relevant-section extraction. -/
def vsScoreDoc (query : String) (queryEmbedding : List ℚ) (queryNorm floor : ℚ)
    (metadataFilter : Option MetadataFilter) (doc : VectorDocument) :
    Option VectorSearchResult :=
  if (match metadataFilter with
      | some f => !(matchesMetadataFilter doc f)
      | none => false) then none
  else
    let vectorSimilarity := cosineSimilarity queryEmbedding doc.embedding (some queryNorm) doc.norm
    let exactMatchBoost := calculateExactMatchBoost query doc.text
    let finalSimilarity := min 1 ((9 / 10) * vectorSimilarity + (1 / 10) * exactMatchBoost)
    if floor < finalSimilarity then
      some { id := doc.id, text := extractRelevantSection query doc.text,
             metadata := doc.metadata, similarity := finalSimilarity,
             distance := 1 - finalSimilarity }
    else none

/-- The sort comparator of `search`: similarity descending, ties within 0.01
broken by `metadata?.timestamp || 0` descending. -/
def searchCmp (a b : VectorSearchResult) : ℚ :=
  if 1 / 100 < |a.similarity - b.similarity| then b.similarity - a.similarity
  else jsOrQ b.metadata.timestamp 0 - jsOrQ a.metadata.timestamp 0

/-- The unsorted hit list of `search` (the `results` array, in document
order). -/
def searchScored (query : String) (queryEmbedding : List ℚ) (queryNorm floor : ℚ)
    (metadataFilter : Option MetadataFilter) (docs : List VectorDocument) :
    List VectorSearchResult :=
  docs.filterMap (vsScoreDoc query queryEmbedding queryNorm floor metadataFilter)

/-- The `sortedResults` list of `search`. -/
def searchRanked (query : String) (queryEmbedding : List ℚ) (queryNorm floor : ℚ)
    (metadataFilter : Option MetadataFilter) (docs : List VectorDocument) :
    List VectorSearchResult :=
  jsSortBy searchCmp (searchScored query queryEmbedding queryNorm floor metadataFilter docs)

/-- `deduplicateByDocument` loop; the decreasing `limit` argument is the
remaining capacity (`limit - deduplicatedResults.length` in the source, whose
loop breaks right after a push once the length reaches `limit`; with
`limit = 0` that still returns the first kept result). -/
def dedupGo : List VectorSearchResult → List String → ℕ → List VectorSearchResult
  | [], _, _ => []
  | r :: rest, seen, limit =>
    let filename := jsOrStr r.metadata.filename "unknown"
    if seen.contains filename then dedupGo rest seen limit
    else if limit ≤ 1 then [r]
    else r :: dedupGo rest (filename :: seen) (limit - 1)

/-- `deduplicateByDocument`. -/
def deduplicateByDocument (results : List VectorSearchResult) (limit : ℕ) :
    List VectorSearchResult :=
  dedupGo results [] limit

/-- The cache-miss path of `search` (inside the `try`): a provider failure is
caught and yields the empty result list with the state unchanged. -/
def searchMiss (embedQuery : String → Except String (List ℚ)) (now : ℚ) (s : StoreState)
    (query : String) (limit : ℕ) (floor : ℚ) (metadataFilter : Option MetadataFilter)
    (cacheKey : QueryKey) : List VectorSearchResult × StoreState :=
  match getCachedEmbedding embedQuery now s query with
  | .error _ => ([], s)
  | .ok (queryEmbedding, s1) =>
    let queryNorm := calculateNorm queryEmbedding
    let deduplicatedResults := deduplicateByDocument
      (searchRanked query queryEmbedding queryNorm floor metadataFilter s1.documents) limit
    let qc := setAssoc s1.queryCache cacheKey ⟨deduplicatedResults, now⟩
    let qc := if 100 < qc.length then sweepCache now qc else qc
    (deduplicatedResults, { s1 with queryCache := qc })

/-- `search`. -/
def search (embedQuery : String → Except String (List ℚ)) (now : ℚ) (s : StoreState)
    (query : String) (limit : ℕ) (minSimilarity : Option ℚ)
    (metadataFilter : Option MetadataFilter) : List VectorSearchResult × StoreState :=
  let floor := adjustedMinSimilarity query minSimilarity
  if s.documents.isEmpty then ([], s)
  else
    let cacheKey : QueryKey := ⟨query, limit, floor, metadataFilter⟩
    match lookupAssoc s.queryCache cacheKey with
    | some e =>
      if isCacheValid now e.timestamp then (e.value, s)
      else searchMiss embedQuery now s query limit floor metadataFilter cacheKey
    | none => searchMiss embedQuery now s query limit floor metadataFilter cacheKey

/-- One element of the `chunks` argument of `add`. -/
structure AddChunk where
  id : String
  text : String
  metadata : Metadata
deriving Repr, DecidableEq

/-- `add`: one batched embedding call, precomputed norms, one shared upload
timestamp, derived structured metadata, append to the collection (the snapshot
write is persistence, outside the model). -/
def add (embedMany : List String → Except String (List (List ℚ))) (now : ℚ)
    (s : StoreState) (chunks : List AddChunk) : Except String StoreState :=
  match embedMany (chunks.map fun c => c.text) with
  | .error e => .error e
  | .ok embeddings =>
    let vectorDocs := (chunks.zip embeddings).map fun p =>
      { id := p.1.id, text := p.1.text, metadata := p.1.metadata, embedding := p.2,
        norm := some (calculateNorm p.2), timestamp := some now,
        structuredMetadata := some
          { documentType := p.1.metadata.documentType,
            keywords := p.1.metadata.keywords.getD [],
            date := p.1.metadata.date,
            people := p.1.metadata.people.getD [],
            organizations := p.1.metadata.organizations.getD [],
            financials := p.1.metadata.financials } : VectorDocument }
    .ok { s with documents := s.documents ++ vectorDocs }

/-- `clear`: empties the document collection and the query cache, saves the
(now empty) snapshot, and leaves the embedding cache untouched. -/
def clear (s : StoreState) : StoreState :=
  { s with documents := [], queryCache := [] }

/-! ## File-based lexical store (source: `src/lib/file-based-store.ts`)

The untyped metadata blob enters the scoring only through
`JSON.stringify(doc.metadata)`; it is therefore modelled by that JSON string
directly. -/

/-- A chunk of the file-based store. -/
structure FBChunk where
  id : String
  text : String
  metadataJson : String
  embedding : Option (List ℚ) := none
deriving Repr, DecidableEq

/-- A scored chunk as produced by `fileBasedStore.search` (the spread `...doc`
plus `similarity` and the four sub-scores). -/
structure FBScored where
  id : String
  text : String
  metadataJson : String
  embedding : Option (List ℚ) := none
  similarity : ℚ
  exactScore : ℚ
  keywordScore : ℚ
  metadataScore : ℚ
  questionScore : ℚ
deriving Repr, DecidableEq

/-- `calculateExactMatchScore` (both arguments are already lower-cased by the
caller; the count is modelled literally as in `calculateExactMatchBoost`). -/
def calculateExactMatchScore (query text : String) : ℚ :=
  if jsIncludes (jsLower text) (jsLower query) then
    let occurrences := countOccL (strL (jsLower query)) (strL (jsLower text))
    min 1 ((occurrences : ℚ) * (2 / 5))
  else 0

/-- `calculateKeywordScore`. -/
def calculateKeywordScore (query text : String) : ℚ :=
  let queryWords := (splitWsL (strL (jsLower query))).filter fun w => 1 < w.length
  let textWords := splitWsL (strL (jsLower text))
  let step := queryWords.foldl (fun (p : ℚ × ℕ) word =>
    let exactMatches := (textWords.filter fun w => w = word).length
    let partialMatches := (textWords.filter fun w => hasSubL word w).length
    if 0 < exactMatches then (p.1 + min (1 / 2) ((exactMatches : ℚ) * (1 / 5)), p.2 + 1)
    else if 0 < partialMatches then (p.1 + min (3 / 10) ((partialMatches : ℚ) * (1 / 10)), p.2 + 1)
    else p) (0, 0)
  let score := if step.2 = queryWords.length ∧ 0 < queryWords.length then step.1 + 3 / 10 else step.1
  min 1 score

/-- `calculateMetadataScore`. -/
def calculateMetadataScore (query metadata : String) : ℚ :=
  let queryWords := (splitWsL (strL query)).filter fun w => 2 < w.length
  min 1 (((queryWords.filter fun w => hasSubL w (strL metadata)).length : ℚ) * (1 / 5))

/-- The seven `answerPatterns` of `calculateQuestionScore`, translated one by
one (`gi` flags: global case-insensitive scans). -/
def answerPatterns : List (List RItem) :=
  [[.alts true [strL "is", strL "are", strL "was", strL "were"], wsPlus,
    .cls (fun c => !(c = '.' || c = '!' || c = '?')) 1 none],
   [.alts true [strL "the", strL "a", strL "an"], wsPlus,
    .cls (fun c => !(c = '.' || c = '!' || c = '?')) 1 none],
   [.alts true [strL "located", strL "found", strL "situated"], wsPlus,
    .alts true [strL "at", strL "in", strL "on"], wsPlus,
    .cls (fun c => !(c = '.' || c = '!' || c = '?')) 1 none],
   [.alts true [strL "contact", strL "email", strL "phone", strL "address"],
    .cls (fun c => c = ':' || jsIsSpace c) 1 none,
    .cls (fun c => !(c = '.' || c = '!' || c = '?' || c = '\n')) 1 none],
   [.alts true [strL "amount", strL "total", strL "cost", strL "price"],
    .cls (fun c => c = ':' || jsIsSpace c) 0 none, .cls (fun c => c = '$') 0 (some 1),
    .cls (fun c => c.isDigit || c = ',') 1 none, .cls (fun c => c = '.') 0 (some 1),
    .cls Char.isDigit 0 none],
   [.alts true [strL "revenue", strL "profit", strL "margin"],
    .cls (fun c => c = ':' || jsIsSpace c) 0 none, .cls (fun c => c = '$') 0 (some 1),
    .cls (fun c => c.isDigit || c = ',') 1 none, .cls (fun c => c = '.') 0 (some 1),
    .cls Char.isDigit 0 none],
   [.alts true [strL "partnership", strL "agreement", strL "contract"],
    .cls (fun c => c = ':' || jsIsSpace c) 0 none,
    .cls (fun c => !(c = '.' || c = '!' || c = '?' || c = '\n')) 1 none]]

/-- `calculateQuestionScore`: interrogative-word gate, intent-to-content
semantic mapping, and the answer-pattern bonus. -/
def calculateQuestionScore (query text : String) : ℚ :=
  let questionWords := ["what", "who", "when", "where", "why", "how", "which", "whose"]
  let isQuestion := questionWords.any fun w => jsIncludes query w
  if ¬ isQuestion then 0
  else
    let queryLower := jsLower query
    let textLower := jsLower text
    let contractScore : ℚ :=
      if jsIncludes queryLower "contract" || jsIncludes queryLower "agreement" ||
          jsIncludes queryLower "terms" then
        if jsIncludes textLower "partnership" || jsIncludes textLower "agreement" ||
            jsIncludes textLower "terms" || jsIncludes textLower "milestone" ||
            jsIncludes textLower "funding" || jsIncludes textLower "round" then
          2 / 5
        else 0
      else 0
    let financialScore : ℚ :=
      if jsIncludes queryLower "financial" || jsIncludes queryLower "revenue" ||
          jsIncludes queryLower "profit" || jsIncludes queryLower "cost" ||
          jsIncludes queryLower "amount" || jsIncludes queryLower "money" ||
          jsIncludes queryLower "highlights" then
        if jsIncludes textLower "financial highlights" ||
            jsIncludes textLower "revenue: $2.5m" ||
            jsIncludes textLower "net profit: $425,000" ||
            jsIncludes textLower "gross margin: 65%" ||
            jsIncludes textLower "operating expenses: $1.8m" ||
            jsIncludes textLower "cash position: $3.2m" then 1
        else if jsIncludes textLower "revenue: $" || jsIncludes textLower "net profit: $" ||
            jsIncludes textLower "gross margin:" ||
            jsIncludes textLower "operating expenses: $" ||
            jsIncludes textLower "cash position: $" then 4 / 5
        else if jsIncludes textLower "revenue" || jsIncludes textLower "profit" ||
            jsIncludes textLower "cost" || jsIncludes textLower "$" ||
            jsIncludes textLower "financial" || jsIncludes textLower "margin" then 3 / 10
        else if jsIncludes textLower "target" || jsIncludes textLower "upcoming" ||
            jsIncludes textLower "milestone" || jsIncludes textLower "q1 2025" ||
            jsIncludes textLower "q2 2025" || jsIncludes textLower "q3 2025" then 1 / 10
        else 0
      else 0
    let contactScore : ℚ :=
      if jsIncludes queryLower "contact" || jsIncludes queryLower "person" ||
          jsIncludes queryLower "email" || jsIncludes queryLower "phone" ||
          jsIncludes queryLower "address" || jsIncludes queryLower "jennifer" ||
          jsIncludes queryLower "martinez" || jsIncludes queryLower "cfo" ||
          jsIncludes queryLower "chief financial officer" then
        if jsIncludes textLower "@" || jsIncludes textLower "phone" ||
            jsIncludes textLower "contact" || jsIncludes textLower "email" ||
            jsIncludes textLower "jennifer martinez" ||
            jsIncludes textLower "chief financial officer" ||
            jsIncludes textLower "techstartup inc" || jsIncludes textLower "best regards" then
          3 / 5
        else 0
      else 0
    let businessScore : ℚ :=
      if jsIncludes queryLower "business" || jsIncludes queryLower "company" ||
          jsIncludes queryLower "organization" then
        if jsIncludes textLower "company" || jsIncludes textLower "business" ||
            jsIncludes textLower "team" || jsIncludes textLower "expansion" then 3 / 10
        else 0
      else 0
    let updateScore : ℚ :=
      if jsIncludes queryLower "update" || jsIncludes queryLower "progress" ||
          jsIncludes queryLower "status" then
        if jsIncludes textLower "update" || jsIncludes textLower "progress" ||
            jsIncludes textLower "milestone" || jsIncludes textLower "launch" then 3 / 10
        else 0
      else 0
    let semanticScore := contractScore + financialScore + contactScore +
      businessScore + updateScore
    let patternScore := (answerPatterns.map fun pat =>
      let n := scanCount pat (strL text)
      if 0 < n then min (1 / 5) ((n : ℚ) * (1 / 20)) else 0).sum
    min 1 (semanticScore + patternScore)

/-- Combined lexical score of one record (the weighted blend computed in the
`map` of `fileBasedStore.search`; `query` is the already lower-cased query,
`text` the record text, `metadataJson` its serialized metadata). -/
def fbTotalScore (queryLower textLower metadataLower : String) : ℚ :=
  calculateExactMatchScore queryLower textLower * (3 / 10) +
  calculateKeywordScore queryLower textLower * (1 / 5) +
  calculateMetadataScore queryLower metadataLower * (1 / 10) +
  calculateQuestionScore queryLower textLower * (2 / 5)

/-- The scored record produced for one document. -/
def fbScoreDoc (queryLower : String) (doc : FBChunk) : FBScored :=
  let textLower := jsLower doc.text
  let metadataLower := jsLower doc.metadataJson
  { id := doc.id, text := doc.text, metadataJson := doc.metadataJson,
    embedding := doc.embedding,
    similarity := fbTotalScore queryLower textLower metadataLower,
    exactScore := calculateExactMatchScore queryLower textLower,
    keywordScore := calculateKeywordScore queryLower textLower,
    metadataScore := calculateMetadataScore queryLower metadataLower,
    questionScore := calculateQuestionScore queryLower textLower }

/-- `fileBasedStore.search`: score, filter above the 0.05 threshold, sort by
similarity descending, keep the first `limit`. -/
def fbSearch (query : String) (docs : List FBChunk) (limit : ℕ) : List FBScored :=
  let queryLower := jsLower query
  ((jsSortBy (fun a b => b.similarity - a.similarity)
      ((docs.map (fbScoreDoc queryLower)).filter fun d => (1 / 20 : ℚ) < d.similarity)).take
    limit)

/-! ## Answer generation (source: `src/lib/ai-extraction.ts`)

The file declares `generateAnswerFromDocuments` (and its helpers) twice; the
enhanced second declaration is modelled — the two share the same empty-input
guard. The text-generation collaborator is a function parameter returning
`Except`. -/

/-- A raw search result as seen by the answer generator (an untyped object:
every read field is optional). -/
structure AIResult where
  text : Option String := none
  similarity : Option ℚ := none
  metadata : Option Metadata := none
deriving Repr, DecidableEq

/-- A result annotated with the `relevanceScore` added by
`filterAndRankResults`. -/
structure AIRanked where
  text : Option String := none
  similarity : Option ℚ := none
  metadata : Option Metadata := none
  relevanceScore : ℚ
deriving Repr, DecidableEq

/-- The returned answer record. -/
structure AnswerOutput where
  answer : String
  sources : List String
  confidence : ℚ
deriving Repr, DecidableEq

/-- `filterAndRankResults`: relevance boosts for phrase match, word coverage
and length, floor at 0.1, sort descending. -/
def filterAndRankResults (query : String) (searchResults : List AIResult) : List AIRanked :=
  let queryLower := jsLower query
  let queryWords := (splitWsL (strL queryLower)).filter fun w => 2 < w.length
  jsSortBy (fun a b => b.relevanceScore - a.relevanceScore)
    ((searchResults.map fun result =>
      let text := jsOrStr result.text ""
      let textLower := strL (jsLower text)
      let r0 := jsOrQ result.similarity 0
      let r1 := if hasSubL (strL queryLower) textLower then r0 + 1 / 5 else r0
      let wordMatches := (queryWords.filter fun w => hasSubL w textLower).length
      let wordMatchRatio : ℚ :=
        if 0 < queryWords.length then (wordMatches : ℚ) / (queryWords.length : ℚ) else 0
      let r2 := r1 + wordMatchRatio * (1 / 10)
      let r3 := if 200 < text.length then r2 + 1 / 20 else r2
      let r4 := if text.length < 50 then r3 - 1 / 10 else r3
      { text := result.text, similarity := result.similarity,
        metadata := result.metadata, relevanceScore := min 1 r4 : AIRanked }).filter
      fun r => (1 / 10 : ℚ) < r.relevanceScore)

/-- `\d{4}-\d{2}-\d{2}` date shape. -/
def isoDatePat : List RItem :=
  [.cls Char.isDigit 4 (some 4), .lit false ['-'], .cls Char.isDigit 2 (some 2),
   .lit false ['-'], .cls Char.isDigit 2 (some 2)]

/-- `\d{1,2}\/\d{1,2}\/\d{4}` date shape. -/
def slashDatePat : List RItem :=
  [.cls Char.isDigit 1 (some 2), .lit false ['/'], .cls Char.isDigit 1 (some 2),
   .lit false ['/'], .cls Char.isDigit 4 (some 4)]

/-- `calculateAnswerConfidence`: mean similarity plus boosts for specifics and
query coverage, penalties for short or hedging answers, clamped to
`[0.1, 0.95]`. (Always called with a non-empty result list; the `0/0` of an
empty list would be NaN in JS and is `0` here.) -/
def calculateAnswerConfidence (query : String) (results : List AIRanked) (answer : String) : ℚ :=
  let avgSimilarity := (results.map fun r => jsOrQ r.similarity 0).sum / (results.length : ℚ)
  let hasNumbers := (strL answer).any Char.isDigit
  let hasDates := hasMatch isoDatePat (strL answer) || hasMatch slashDatePat (strL answer)
  let c1 := if hasNumbers || hasDates then avgSimilarity + 1 / 10 else avgSimilarity
  let queryWords := (splitWsL (strL (jsLower query))).filter fun w => 2 < w.length
  let answerLower := strL (jsLower answer)
  let queryWordMatches := (queryWords.filter fun w => hasSubL w answerLower).length
  let queryMatchRatio : ℚ :=
    if 0 < queryWords.length then (queryWordMatches : ℚ) / (queryWords.length : ℚ) else 0
  let c2 := c1 + queryMatchRatio * (1 / 10)
  let c3 := if answer.length < 50 then c2 - 1 / 5 else c2
  let c4 := if jsIncludes answer "I couldn\x27t find" || jsIncludes answer "not found" then
    c3 - 3 / 10 else c3
  min (19 / 20) (max (1 / 10) c4)

/-- `metadata?.filename || "unknown"` for an optional metadata blob. -/
def aiFilename (m : Option Metadata) (d : String) : String :=
  match m with
  | some md => jsOrStr md.filename d
  | none => d

/-- `replace(/\s+/g, " ")`: every whitespace run becomes one space. -/
def wsToSpaceGo : Nat → List Char → List Char
  | 0, _ => []
  | _ + 1, [] => []
  | fuel + 1, c :: rest =>
    if jsIsSpace c then
      ' ' :: wsToSpaceGo fuel ((c :: rest).drop ((c :: rest).takeWhile jsIsSpace).length)
    else c :: wsToSpaceGo fuel rest

/-- See `wsToSpaceGo`. -/
def wsToSpace (s : List Char) : List Char := wsToSpaceGo s.length s

/-- `selectDistinctChunks`: keep up to `maxChunks` results, skipping repeated
content signatures (first 200 lower-cased characters, whitespace normalised)
and repeated source documents. -/
def selectDistinctGo : List AIRanked → List (List Char) → List String → ℕ → List AIRanked
  | [], _, _, _ => []
  | r :: rest, seenContent, seenDocuments, remaining =>
    if remaining = 0 then []
    else
      let filename := aiFilename r.metadata "unknown"
      let text := jsOrStr r.text ""
      let contentSignature := wsToSpace ((lowerL (strL text)).take 200)
      if seenContent.contains contentSignature || seenDocuments.contains filename then
        selectDistinctGo rest seenContent seenDocuments remaining
      else
        r :: selectDistinctGo rest (contentSignature :: seenContent)
          (filename :: seenDocuments) (remaining - 1)

/-- `selectDistinctChunks`. -/
def selectDistinctChunks (searchResults : List AIRanked) (maxChunks : ℕ) : List AIRanked :=
  selectDistinctGo searchResults [] [] maxChunks

/-- Split on a literal separator string. -/
def splitOnSepGo : Nat → List Char → List Char → List Char → List (List Char)
  | 0, _, _, acc => [acc.reverse]
  | _ + 1, _, [], acc => [acc.reverse]
  | fuel + 1, sep, c :: rest, acc =>
    if sep.isPrefixOf (c :: rest) ∧ ¬ sep.isEmpty then
      acc.reverse :: splitOnSepGo fuel sep ((c :: rest).drop sep.length) []
    else splitOnSepGo fuel sep rest (c :: acc)

/-- See `splitOnSepGo`. -/
def splitOnSepL (sep s : List Char) : List (List Char) := splitOnSepGo s.length sep s []

/-- `truncateContextSensibly`: prefer whole documents at the `\n---\n`
boundaries, admit one sliced document only when more than 100 characters of
budget remain. -/
def truncGo (sep : List Char) (maxLen : ℕ) : List (List Char) → List Char → ℕ → List Char
  | [], acc, _ => acc
  | doc :: docs, acc, clen =>
    let docWithSep := if acc.isEmpty then doc else sep ++ doc
    if clen + docWithSep.length ≤ maxLen then
      truncGo sep maxLen docs (acc ++ docWithSep) (clen + docWithSep.length)
    else
      let remainingSpace := maxLen - clen
      if 100 < remainingSpace then
        acc ++ sep ++ doc.take (remainingSpace - sep.length) ++ strL "..."
      else acc

/-- `truncateContextSensibly`. -/
def truncateContextSensibly (context : String) (maxLength : ℕ) : String :=
  if context.length ≤ maxLength then context
  else
    let sep := strL "\n---\n"
    ofL (truncGo sep maxLength (splitOnSepL sep (strL context)) [] 0)

/-- `postProcessAnswer`: add heading structure, append a sources line when no
attribution is present, and append a coverage note when the answer covers
under 30% of the query words (an empty query word list gives a NaN coverage in
JS, whose comparison is false: no note). -/
def postProcessAnswer (answer query : String) (chunks : List AIRanked) : String :=
  let a1 :=
    if ¬ (jsIncludes answer "**" || jsIncludes answer "##" || jsIncludes answer "#") then
      let lines := (splitLinesL (strL answer)).filter fun l => 0 < (jsTrimL l).length
      if 1 < lines.length then
        "## Answer\n\n" ++ ofL (List.intercalate (strL "\n\n") lines)
      else answer
    else answer
  let hasSourceAttribution :=
    jsIncludes (jsLower a1) "source:" || jsIncludes (jsLower a1) "according to" ||
      jsIncludes (jsLower a1) "based on"
  let a2 :=
    if ¬ hasSourceAttribution ∧ 0 < chunks.length then
      a1 ++ "\n\n**Sources:** " ++
        String.intercalate ", " (chunks.map fun c => aiFilename c.metadata "Unknown")
    else a1
  let queryWords := (splitWsL (strL (jsLower query))).filter fun w => 2 < w.length
  let answerLower := strL (jsLower a2)
  let covered := (queryWords.filter fun w => hasSubL w answerLower).length
  if 0 < queryWords.length ∧ ((covered : ℚ) / (queryWords.length : ℚ)) < 3 / 10 then
    "## Answer\n\n" ++ a2 ++
      "\n\n*Note: This response may not fully address all aspects of your question. Please review the source documents for additional details.*"
  else a2

/-- `x.toFixed(1)` for the relevance percentage (round to nearest tenth,
larger on ties; the `-0.0` edge of JS is not distinguished). -/
def jsToFixed1 (x : ℚ) : String :=
  let n := ⌊x * 10 + 1 / 2⌋
  if n < 0 then "-" ++ toString ((-n) / 10) ++ "." ++ toString ((-n) % 10)
  else toString (n / 10) ++ "." ++ toString (n % 10)

/-- Email alternative of the contact regex
(`\b[A-Za-z0-9._%+-]+@[A-Za-z0-9.-]+\.[A-Z|a-z]{2,}\b`); the leading `\b` is
enforced by the scanner, the trailing one as a next-character look (the corner
where the TLD class matches a literal `|` is not distinguished). -/
def emailPat : List RItem :=
  [.cls (fun c => c.isAlphanum || c = '.' || c = '_' || c = '%' || c = '+' || c = '-') 1 none,
   .lit false ['@'],
   .cls (fun c => c.isAlphanum || c = '.' || c = '-') 1 none,
   .lit false ['.'],
   .cls (fun c => ('A' ≤ c && c ≤ 'Z') || ('a' ≤ c && c ≤ 'z') || c = '|') 2 none,
   .look (fun nc => match nc with | none => true | some c => !isWordChar c)]

/-- Phone alternative of the contact regex
(`\(?\d{3}\)?[-.\s]?\d{3}[-.\s]?\d{4}`). -/
def phonePat : List RItem :=
  [.cls (fun c => c = '(') 0 (some 1), .cls Char.isDigit 3 (some 3),
   .cls (fun c => c = ')') 0 (some 1), .cls (fun c => c = '-' || c = '.' || jsIsSpace c) 0 (some 1),
   .cls Char.isDigit 3 (some 3), .cls (fun c => c = '-' || c = '.' || jsIsSpace c) 0 (some 1),
   .cls Char.isDigit 4 (some 4)]

/-- Global scan over an ordered alternation of patterns, each optionally
requiring a leading word boundary. -/
def scanAltsGo (fuel : Nat) (pats : List (List RItem × Bool)) (prev : Option Char) (s : List Char) :
    List (List Char) :=
  match fuel, s with
  | 0, _ => []
  | _ + 1, [] => []
  | fuel + 1, c :: rest =>
    let hit := pats.findSome? fun pw =>
      let bOK : Bool := !pw.2 || (match prev with | none => true | some pc => !isWordChar pc)
      if bOK then matchItems pw.1 (c :: rest) else none
    match hit with
    | some n =>
      let k := max n 1
      (c :: rest).take k :: scanAltsGo fuel pats ((c :: rest).get? (k - 1)) ((c :: rest).drop k)
    | none => scanAltsGo fuel pats (some c) rest

/-- See `scanAltsGo`. -/
def scanAlts (pats : List (List RItem × Bool)) (s : List Char) : List (List Char) :=
  scanAltsGo s.length pats none s

/-- `generateFallbackAnswer` (enhanced second version): templated answers from
extracted dollar figures or contact patterns, else a generic excerpt summary.
`Array.prototype.join` renders a missing text as the empty string. -/
def generateFallbackAnswer (query : String) (searchResults : List AIResult) : String :=
  let queryLower := jsLower query
  let joined := strL (String.intercalate " " (searchResults.map fun r => jsOrStr r.text ""))
  let sourceList := String.intercalate ", " (searchResults.map fun r => aiFilename r.metadata "Unknown")
  let financialBranch : Option String :=
    if jsIncludes queryLower "financial" || jsIncludes queryLower "revenue" ||
        jsIncludes queryLower "profit" then
      let financialInfo := scanMatches dollarPat false joined
      if 0 < financialInfo.length then
        some ("Based on the documents, I found the following financial information:\n\n**Financial Figures Found:**\n" ++
          String.intercalate "\n" (financialInfo.enum.map fun p =>
            toString (p.1 + 1) ++ ". " ++ ofL p.2) ++
          "\n\n**Source Documents:** " ++ sourceList ++
          "\n\nPlease review the specific documents for complete financial details and context.")
      else none
    else none
  match financialBranch with
  | some ans => ans
  | none =>
    let contactBranch : Option String :=
      if jsIncludes queryLower "contact" || jsIncludes queryLower "email" ||
          jsIncludes queryLower "phone" then
        let contactInfo := scanAlts [(emailPat, true), (phonePat, false)] joined
        if 0 < contactInfo.length then
          some ("Based on the documents, I found the following contact information:\n\n**Contact Details Found:**\n" ++
            String.intercalate "\n" (contactInfo.enum.map fun p =>
              toString (p.1 + 1) ++ ". " ++ ofL p.2) ++
            "\n\n**Source Documents:** " ++ sourceList ++
            "\n\nPlease check the documents for complete contact details and context.")
        else none
      else none
    match contactBranch with
    | some ans => ans
    | none =>
      let relevantText := String.intercalate "\n\n" ((searchResults.take 3).enum.map fun p =>
        let source := aiFilename p.2.metadata ("Document " ++ toString (p.1 + 1))
        let text := ofL ((strL (jsOrStr p.2.text "")).take 300)
        "**Source: " ++ source ++ "**\n" ++ text ++ "...")
      "Based on the uploaded documents, I found relevant information related to your query:\n\n" ++
        relevantText ++
        "\n\n**Summary:** The documents contain information that may be relevant to your question. Please review the full documents for complete details and context.\n\n**Source Documents:** " ++
        sourceList

/-- The fixed no-information answer returned on an empty or missing result
list. -/
def noInfoAnswer : AnswerOutput :=
  { answer := "I couldn\x27t find any relevant information in the uploaded documents to answer your question.",
    sources := [], confidence := 0 }

/-- The labelled context block of one selected chunk. -/
def contextBlock (p : ℕ × AIRanked) : String :=
  let metadata := p.2.metadata.getD {}
  let source := jsOrStr metadata.filename ("Document " ++ toString (p.1 + 1))
  let docType := jsOrStr metadata.documentType "unknown"
  let date := jsOrStr metadata.date "no date"
  let keywords :=
    match metadata.keywords with
    | some ks => jsOrStr (some (String.intercalate ", " (ks.take 3))) "no keywords"
    | none => "no keywords"
  let similarity := jsOrQ p.2.similarity 0
  "[Source: " ++ source ++ " | Type: " ++ docType ++ " | Date: " ++ date ++
    " | Keywords: " ++ keywords ++ " | Relevance: " ++ jsToFixed1 (similarity * 100) ++
    "%]\n" ++ jsOrStr p.2.text "" ++ "\n"

/-- The instruction preamble of the generation prompt (the long literal of the
source, reproduced with its structure; only what reaches the collaborator). -/
def promptHeader : String :=
  "\nYou are a professional AI assistant that provides detailed, well-formatted answers based on document content. Analyze the provided context thoroughly and generate a comprehensive, formal response.\n\nUser Question: "

/-- Middle section of the prompt between the query and the context. -/
def promptMiddle : String :=
  "\n\nContext from uploaded documents:\n"

/-- Tail of the prompt after the context: the numbered analysis and formatting
requirements of the source literal. -/
def promptTail : String :=
  "\n\nANALYSIS AND FORMATTING REQUIREMENTS:\n\n1. CONTENT ANALYSIS:\n   - Thoroughly analyze the provided context\n   - Identify all relevant information related to the question\n   - Cross-reference information across multiple sources when available\n   - Note any conflicting information or gaps in the data\n\n2. RESPONSE STRUCTURE:\n   - Provide a clear, formal introduction that directly addresses the question\n   - Organize information logically with proper headings and subheadings\n   - Use bullet points, numbered lists, or tables when appropriate\n   - Include a conclusion that summarizes key findings\n\n3. DETAILED CONTENT REQUIREMENTS:\n   - Provide comprehensive details, not just brief summaries\n   - Include specific numbers, dates, names, amounts, and technical details\n   - Explain context and background information when relevant\n   - Synthesize information from multiple sources into coherent insights\n   - Highlight important patterns, trends, or relationships in the data\n\n4. SOURCE ATTRIBUTION:\n   - Always cite sources using the format: \"According to [Source: filename]...\"\n   - When synthesizing information from multiple sources, mention all relevant sources\n   - Use phrases like \"Based on the contract details...\" or \"The financial report indicates...\"\n   - Distinguish between different document types (contracts, emails, reports, etc.)\n\n5. FORMATTING GUIDELINES:\n   - Use proper business/professional language\n   - Structure information hierarchically (main points → sub-points → details)\n   - Use formatting like **bold** for emphasis on key terms\n   - Include relevant quotes when they add value\n   - Present financial data in clear, organized formats\n   - Use consistent terminology throughout\n\n6. QUALITY STANDARDS:\n   - Provide actionable insights, not just raw data\n   - Explain the significance of findings\n   - Address potential implications or next steps when relevant\n   - Ensure the answer is complete and addresses all aspects of the question\n   - Use professional tone appropriate for business/legal documents\n\n7. ERROR HANDLING:\n   - If information is incomplete, clearly state what is missing\n   - If there are contradictions, present both perspectives with analysis\n   - If the question cannot be fully answered, explain what information is available\n   - Never fabricate or assume information not present in the context\n\nGenerate a detailed, professional response that thoroughly addresses the user\x27s question:"

/-- `generateAnswerFromDocuments` (enhanced second declaration): empty-input
guard, rank/filter, distinct-chunk selection, bounded context, collaborator
call with confidence scoring, deterministic fallback on collaborator failure. -/
def generateAnswerFromDocuments (llm : String → Except String String) (query : String)
    (searchResults : Option (List AIResult)) (maxContextLength : ℕ) : AnswerOutput :=
  match searchResults with
  | none => noInfoAnswer
  | some rs =>
    if rs.isEmpty then noInfoAnswer
    else
      let filteredResults := filterAndRankResults query rs
      if filteredResults.isEmpty then noInfoAnswer
      else
        let distinctChunks := selectDistinctChunks filteredResults 5
        let contextChunks := String.intercalate "\n---\n" (distinctChunks.enum.map contextBlock)
        let truncatedContext := truncateContextSensibly contextChunks maxContextLength
        let sources := distinctChunks.map fun r => aiFilename r.metadata "Unknown document"
        let prompt := promptHeader ++ query ++ promptMiddle ++ truncatedContext ++ promptTail
        match llm prompt with
        | .ok content =>
          let answer := postProcessAnswer content query distinctChunks
          let confidence := calculateAnswerConfidence query filteredResults answer
          { answer := jsTrim answer, sources := sources,
            confidence := ((jsRound (confidence * 100) : ℚ) / 100) }
        | .error _ =>
          { answer := generateFallbackAnswer query rs, sources := sources, confidence := 3 / 10 }

/-! ## General lemmas about the sort and deduplication combinators -/

/-- Inserting into a locally ordered list keeps it locally ordered, for any
total relation — transitivity is not needed, which matters because the search
comparator is not transitive. -/
lemma chain_orderedInsert {α : Type} (r : α → α → Prop) [DecidableRel r]
    (total : ∀ a b, r a b ∨ r b a) (a : α) :
    ∀ l : List α, List.Chain' r l → List.Chain' r (List.orderedInsert r a l)
  | [], _ => List.chain'_singleton a
  | b :: l, h => by
    rw [List.orderedInsert]
    split
    · exact List.Chain'.cons (by assumption) h
    · rename_i hnab
      have hba : r b a := (total a b).resolve_left hnab
      have htail : List.Chain' r (List.orderedInsert r a l) :=
        chain_orderedInsert r total a l h.tail
      refine List.chain'_cons'.2 ⟨?_, htail⟩
      intro y hy
      cases l with
      | nil =>
        simp only [List.orderedInsert, List.head?_cons, Option.mem_def] at hy
        cases hy
        exact hba
      | cons c l' =>
        rw [List.orderedInsert] at hy
        split at hy
        · simp only [List.head?_cons, Option.mem_def] at hy
          cases hy
          exact hba
        · simp only [List.head?_cons, Option.mem_def] at hy
          cases hy
          exact (List.chain'_cons.1 h).1

/-- The insertion sort of any list is locally ordered for a total relation. -/
lemma chain_insertionSort {α : Type} (r : α → α → Prop) [DecidableRel r]
    (total : ∀ a b, r a b ∨ r b a) :
    ∀ l : List α, List.Chain' r (List.insertionSort r l)
  | [] => List.chain'_nil
  | a :: l => chain_orderedInsert r total a _ (chain_insertionSort r total l)

/-- Local ordering of `jsSortBy` under a comparator whose two orientations
always sum to a non-positive pair (totality). -/
lemma jsSortBy_chain {α : Type} (cmp : α → α → ℚ)
    (total : ∀ a b, cmp a b ≤ 0 ∨ cmp b a ≤ 0) (l : List α) :
    List.Chain' (fun a b => cmp a b ≤ 0) (jsSortBy cmp l) := by
  unfold jsSortBy
  exact chain_insertionSort _ total l

/-- Membership is preserved by `jsSortBy`. -/
lemma mem_jsSortBy {α : Type} {cmp : α → α → ℚ} {l : List α} {x : α} :
    x ∈ jsSortBy cmp l ↔ x ∈ l := by
  unfold jsSortBy
  exact List.mem_insertionSort _

/-- `jsSortBy` output is globally pairwise ordered when the comparator is also
transitive. -/
lemma jsSortBy_pairwise {α : Type} (cmp : α → α → ℚ)
    (total : ∀ a b, cmp a b ≤ 0 ∨ cmp b a ≤ 0)
    (trans : ∀ a b c, cmp a b ≤ 0 → cmp b c ≤ 0 → cmp a c ≤ 0) (l : List α) :
    List.Pairwise (fun a b => cmp a b ≤ 0) (jsSortBy cmp l) := by
  unfold jsSortBy
  haveI : IsTotal α (fun a b => cmp a b ≤ 0) := ⟨total⟩
  haveI : IsTrans α (fun a b => cmp a b ≤ 0) := ⟨trans⟩
  exact List.sorted_insertionSort _ l

/-- The deduplication loop yields a sublist of its input. -/
lemma dedupGo_sublist : ∀ (l : List VectorSearchResult) (seen : List String) (b : ℕ),
    List.Sublist (dedupGo l seen b) l
  | [], _, _ => List.Sublist.refl []
  | r :: rest, seen, b => by
    simp only [dedupGo]
    split
    · exact (dedupGo_sublist rest seen b).cons r
    · split
      · simpa using List.nil_sublist rest
      · exact (dedupGo_sublist rest _ _).cons₂ r

/-- Every filename kept by the deduplication loop was absent from `seen`. -/
lemma dedupGo_mem_seen : ∀ (l : List VectorSearchResult) (seen : List String) (b : ℕ)
    (r : VectorSearchResult), r ∈ dedupGo l seen b →
    seen.contains (jsOrStr r.metadata.filename "unknown") = false
  | [], _, _, _, h => by simp [dedupGo] at h
  | x :: rest, seen, b, r, h => by
    simp only [dedupGo] at h
    split at h
    · exact dedupGo_mem_seen rest seen b r h
    · next hc =>
      split at h
      · simp only [List.mem_singleton] at h
        subst h
        simpa using hc
      · rcases List.mem_cons.1 h with h | h
        · subst h
          simpa using hc
        · have := dedupGo_mem_seen rest _ _ r h
          simp only [List.contains_cons, Bool.or_eq_false_iff] at this
          exact this.2

/-- The deduplication loop emits pairwise distinct source filenames. -/
lemma dedupGo_pairwise : ∀ (l : List VectorSearchResult) (seen : List String) (b : ℕ),
    List.Pairwise (fun a c =>
      jsOrStr a.metadata.filename "unknown" ≠ jsOrStr c.metadata.filename "unknown")
      (dedupGo l seen b)
  | [], _, _ => by simp [dedupGo]
  | x :: rest, seen, b => by
    simp only [dedupGo]
    split
    · exact dedupGo_pairwise rest seen b
    · split
      · simp
      · refine List.pairwise_cons.2 ⟨?_, dedupGo_pairwise rest _ _⟩
        intro y hy
        have h := dedupGo_mem_seen rest _ _ y hy
        simp only [List.contains_cons, Bool.or_eq_false_iff, beq_eq_false_iff_ne] at h
        exact fun hEq => h.1 (hEq ▸ rfl)

/-- With a positive limit, the deduplication loop returns at most `limit`
results. -/
lemma dedupGo_length : ∀ (l : List VectorSearchResult) (seen : List String) (b : ℕ),
    1 ≤ b → (dedupGo l seen b).length ≤ b
  | [], _, _, _ => by simp [dedupGo]
  | x :: rest, seen, b, hb => by
    simp only [dedupGo]
    split
    · exact dedupGo_length rest seen b hb
    · split
      · simpa using hb
      · next hlim =>
        have ih := dedupGo_length rest (jsOrStr x.metadata.filename "unknown" :: seen)
          (b - 1) (by omega)
        simp only [List.length_cons]
        omega

/-- Chunks surviving post-processing keep the 20-character floor. -/
lemma postProcessGo_length : ∀ (cs seen acc : List (List Char)),
    (∀ a ∈ acc, 20 ≤ a.length) → ∀ c ∈ postProcessGo cs seen acc, 20 ≤ c.length
  | [], _, acc, hacc, c, hc => hacc c (by simpa [postProcessGo] using hc)
  | x :: cs, seen, acc, hacc, c, hc => by
    simp only [postProcessGo] at hc
    split at hc
    · exact postProcessGo_length cs seen acc hacc c hc
    · split at hc
      · exact postProcessGo_length cs seen acc hacc c hc
      · split at hc
        · exact postProcessGo_length cs seen acc hacc c hc
        · refine postProcessGo_length cs _ _ ?_ c hc
          intro a ha
          rcases List.mem_append.1 ha with ha | ha
          · exact hacc a ha
          · simp only [List.mem_singleton] at ha
            subst ha
            omega

/-- Post-processed chunks are pairwise distinct after case folding and
trimming. -/
lemma postProcessGo_pairwise : ∀ (cs seen acc : List (List Char)),
    (∀ a ∈ acc, seen.contains (jsTrimL (lowerL a)) = true) →
    List.Pairwise (fun a b => jsTrimL (lowerL a) ≠ jsTrimL (lowerL b)) acc →
    List.Pairwise (fun a b => jsTrimL (lowerL a) ≠ jsTrimL (lowerL b)) (postProcessGo cs seen acc)
  | [], _, acc, _, hp => by simpa [postProcessGo] using hp
  | x :: cs, seen, acc, hacc, hp => by
    simp only [postProcessGo]
    split
    · exact postProcessGo_pairwise cs seen acc hacc hp
    · split
      · exact postProcessGo_pairwise cs seen acc hacc hp
      · next hkey =>
        split
        · exact postProcessGo_pairwise cs seen acc hacc hp
        · refine postProcessGo_pairwise cs _ _ ?_ ?_
          · intro a ha
            rcases List.mem_append.1 ha with ha | ha
            · have hmem : jsTrimL (lowerL a) ∈ seen := by simpa using hacc a ha
              simp [List.contains_cons, hmem]
            · simp only [List.mem_singleton] at ha
              subst ha
              simp [List.contains_cons]
          · refine List.pairwise_append.2 ⟨hp, List.pairwise_singleton _ _, ?_⟩
            intro a ha b hb
            simp only [List.mem_singleton] at hb
            subst hb
            intro hEq
            have hmem : jsTrimL (lowerL b) ∈ seen := by
              have := hacc a ha
              rw [hEq] at this
              simpa using this
            simp [hmem] at hkey

/-! ## Concrete instances used by witnesses and counterexamples -/

/-- Metadata of the first evaluation document. -/
def cexMd1 : Metadata := { filename := some "f1", timestamp := some 100 }

/-- Metadata of the second evaluation document. -/
def cexMd2 : Metadata := { filename := some "f2", timestamp := some 50 }

/-- First evaluation document: cosine 119/169 against the query embedding. -/
def cexDoc1 : VectorDocument :=
  { id := "a", text := "alpha beta gamma delta", metadata := cexMd1,
    embedding := [119, 120], norm := some 169 }

/-- Second evaluation document: cosine 120/169, newer metadata timestamp on
the first document. -/
def cexDoc2 : VectorDocument :=
  { id := "b", text := "epsilon theta iota kappa", metadata := cexMd2,
    embedding := [120, 119], norm := some 169 }

/-- A document whose embedding is opposite to the query embedding. -/
def cexDocNeg : VectorDocument :=
  { id := "c", text := "alpha beta gamma delta", metadata := cexMd1,
    embedding := [-119, -120], norm := some 169 }

/-- Store holding the two positive-similarity documents, with empty caches. -/
def cexStore : StoreState :=
  { documents := [cexDoc1, cexDoc2], queryCache := [], embeddingCache := [] }

/-- Store holding the opposite-embedding document. -/
def cexStoreNeg : StoreState :=
  { documents := [cexDocNeg], queryCache := [], embeddingCache := [] }

/-- An embedding provider returning the unit vector `[1, 0]`. -/
def cexEmbed : String → Except String (List ℚ) := fun _ => .ok [1, 0]

/-- The result produced for `cexDoc1` by the query `zq`: similarity
`0.9 · 119/169`. -/
def cexRes1 : VectorSearchResult :=
  { id := "a", text := "alpha beta gamma delta", metadata := cexMd1,
    similarity := 1071 / 1690, distance := 619 / 1690 }

/-- The result produced for `cexDoc2`: similarity `0.9 · 120/169`, higher than
`cexRes1`'s by `0.9/169 ≈ 0.0053 < 0.01`. -/
def cexRes2 : VectorSearchResult :=
  { id := "b", text := "epsilon theta iota kappa", metadata := cexMd2,
    similarity := 108 / 169, distance := 61 / 169 }

/-- A failing embedding provider. -/
def cexEmbedErr : String → Except String (List ℚ) := fun _ => .error "provider down"

/-! ## Claim theorems -/

/-- C10. `clear()` empties the document collection and the query cache and
leaves every embedding-cache entry (with its timestamp) untouched, so a later
search can reuse an embedding cached before the clear. -/
theorem c10_clear_keeps_embeddingCache :
    ∀ s : StoreState, (clear s).documents = [] ∧ (clear s).queryCache = [] ∧
      (clear s).embeddingCache = s.embeddingCache :=
  fun _ => ⟨rfl, rfl, rfl⟩

/-- C3 (counterexample). The claim says the effective floor equals the
caller-supplied `minSimilarity` whenever one is supplied; supplying `0` (a
falsy value in JavaScript) instead selects the length-adaptive default `0.6`
for a one-word query. -/
theorem c3_floor_cex :
    adjustedMinSimilarity "hi" (some 0) = 3 / 5 ∧ (3 / 5 : ℚ) ≠ 0 := by
  constructor
  · decide
  · norm_num

/-- C3 (amended). The effective similarity floor equals the caller-supplied
`minSimilarity` whenever the caller supplies a nonzero one; when the caller
supplies none — or the falsy value `0` — it is the length-adaptive default
determined by query word count (≤2 gives 0.6, ≤4 gives 0.4, ≤8 gives 0.3,
otherwise 0.2). -/
theorem c3_floor_amended :
    (∀ (q : String) (v : ℚ), v ≠ 0 → adjustedMinSimilarity q (some v) = v) ∧
    (∀ q : String, adjustedMinSimilarity q none = calculateDynamicSimilarity q) ∧
    (∀ q : String, adjustedMinSimilarity q (some 0) = calculateDynamicSimilarity q) ∧
    (∀ q : String, calculateDynamicSimilarity q =
      if (splitWsL (strL (jsTrim q))).length ≤ 2 then 3 / 5
      else if (splitWsL (strL (jsTrim q))).length ≤ 4 then 2 / 5
      else if (splitWsL (strL (jsTrim q))).length ≤ 8 then 3 / 10
      else 1 / 5) := by
  refine ⟨fun q v hv => ?_, fun q => rfl, fun q => ?_, fun q => rfl⟩
  · simp [adjustedMinSimilarity, jsOrQ, hv]
  · simp [adjustedMinSimilarity, jsOrQ]

/-- C3 (witness). A nonzero caller-supplied floor is used as given. -/
theorem c3_floor_witness : adjustedMinSimilarity "zq" (some (1 / 2)) = 1 / 2 :=
  c3_floor_amended.1 "zq" (1 / 2) (by norm_num)

/-- C6. A record carrying no date value (neither in `structuredMetadata` nor
in `metadata`) is never rejected by a filter consisting of a `dateRange`
alone, whatever its bounds. -/
theorem c6_dateless_record_kept :
    ∀ (doc : VectorDocument) (dr : DateRange),
      smDate doc = none → doc.metadata.date = none →
      matchesMetadataFilter doc
        { documentType := none, keywords := none, dateRange := some dr } = true := by
  intro doc dr h1 h2
  simp [matchesMetadataFilter, h1, h2, jsOrStrOpt]

/-- C6 (witness). The dateless evaluation document passes a populated date
range. -/
theorem c6_dateless_record_kept_witness :
    matchesMetadataFilter cexDoc1
      { documentType := none, keywords := none,
        dateRange := some { start := some "2024-01-01", stop := some "2024-12-31" } } = true :=
  c6_dateless_record_kept cexDoc1 _ rfl rfl

/-- C7. On a cache miss with a non-empty store, a failing embedding provider
makes `search` return the empty result list instead of propagating the
error. -/
theorem c7_embed_error_returns_empty :
    ∀ (embedQuery : String → Except String (List ℚ)) (now : ℚ) (s : StoreState)
      (query : String) (limit : ℕ) (minSim : Option ℚ) (filter : Option MetadataFilter)
      (e : String),
      s.queryCache = [] → s.embeddingCache = [] → embedQuery query = .error e →
      (search embedQuery now s query limit minSim filter).1 = [] := by
  intro embedQuery now s query limit minSim filter e hq he herr
  simp only [search, hq, lookupAssoc, List.find?_nil, Option.map_none', searchMiss,
    getCachedEmbedding, getFreshEmbedding, he, herr]
  split <;> rfl

/-- C7 (witness). The two-document store with a failing provider yields no
results. -/
theorem c7_embed_error_returns_empty_witness :
    (search cexEmbedErr 1000 cexStore "zq" 10 none none).1 = [] :=
  c7_embed_error_returns_empty cexEmbedErr 1000 cexStore "zq" 10 none none
    "provider down" rfl rfl rfl

/-- C8. On an empty or missing search-result list, `generateAnswerFromDocuments`
returns the fixed no-information answer with confidence exactly 0 and no
sources, independently of the text-generation collaborator (which is therefore
never consulted). -/
theorem c8_empty_results_no_info :
    ∀ (llm : String → Except String String) (query : String) (maxContextLength : ℕ)
      (res : Option (List AIResult)), res = none ∨ res = some [] →
      generateAnswerFromDocuments llm query res maxContextLength = noInfoAnswer ∧
      noInfoAnswer.confidence = 0 ∧ noInfoAnswer.sources = [] := by
  rintro llm query maxContextLength res (rfl | rfl) <;> exact ⟨rfl, rfl, rfl⟩

/-- C8 (witness). Concrete empty-input calls, under an always-succeeding
collaborator. -/
theorem c8_empty_results_no_info_witness :
    generateAnswerFromDocuments (fun _ => .ok "whatever") "any query" none 4000 =
      noInfoAnswer ∧ noInfoAnswer.confidence = 0 ∧ noInfoAnswer.sources = [] :=
  c8_empty_results_no_info (fun _ => .ok "whatever") "any query" 4000 none (Or.inl rfl)

/-- With an empty query cache, `search` reduces to the empty-store check
followed by the miss path. -/
lemma search_cacheEmpty_eq (embedQuery : String → Except String (List ℚ)) (now : ℚ)
    (s : StoreState) (query : String) (limit : ℕ) (minSim : Option ℚ)
    (filter : Option MetadataFilter) (hq : s.queryCache = []) :
    search embedQuery now s query limit minSim filter =
      if s.documents.isEmpty then ([], s)
      else searchMiss embedQuery now s query limit (adjustedMinSimilarity query minSim)
        filter ⟨query, limit, adjustedMinSimilarity query minSim, filter⟩ := by
  simp [search, hq, lookupAssoc]

/-- The miss path either returns nothing (provider failure) or the
deduplication of the ranked list over the store's documents. -/
lemma searchMiss_cases (embedQuery : String → Except String (List ℚ)) (now : ℚ)
    (s : StoreState) (query : String) (limit : ℕ) (floor : ℚ)
    (filter : Option MetadataFilter) (key : QueryKey) :
    (searchMiss embedQuery now s query limit floor filter key).1 = [] ∨
    ∃ emb s1, getCachedEmbedding embedQuery now s query = .ok (emb, s1) ∧
      s1.documents = s.documents ∧
      (searchMiss embedQuery now s query limit floor filter key).1 =
        deduplicateByDocument
          (searchRanked query emb (calculateNorm emb) floor filter s.documents) limit := by
  rcases hg : getCachedEmbedding embedQuery now s query with e | ⟨emb, s1⟩
  · left
    simp [searchMiss, hg]
  · right
    have hdocs : s1.documents = s.documents := by
      rcases hl : lookupAssoc s.embeddingCache query with _ | entry <;>
        simp only [getCachedEmbedding, hl] at hg
      · rcases hf : embedQuery query with e' | emb'
        · simp [getFreshEmbedding, hf] at hg
        · simp only [getFreshEmbedding, hf] at hg
          injection hg with h
          obtain ⟨-, h2⟩ := Prod.mk.inj h
          rw [← h2]
      · split at hg
        · injection hg with h
          obtain ⟨-, h2⟩ := Prod.mk.inj h
          rw [← h2]
        · rcases hf : embedQuery query with e' | emb'
          · simp [getFreshEmbedding, hf] at hg
          · simp only [getFreshEmbedding, hf] at hg
            injection hg with h
            obtain ⟨-, h2⟩ := Prod.mk.inj h
            rw [← h2]
    exact ⟨emb, s1, rfl, hdocs, by simp [searchMiss, hg, hdocs]⟩

/-- Any member of a deduplicated ranked list is the score of one of the
documents. -/
lemma mem_searchRanked_elim {query : String} {emb : List ℚ} {n fl : ℚ}
    {mf : Option MetadataFilter} {docs : List VectorDocument} {limit : ℕ}
    {r : VectorSearchResult}
    (h : r ∈ deduplicateByDocument (searchRanked query emb n fl mf docs) limit) :
    ∃ doc ∈ docs, vsScoreDoc query emb n fl mf doc = some r := by
  have h1 : r ∈ searchRanked query emb n fl mf docs :=
    (dedupGo_sublist _ _ _).subset h
  have h2 : r ∈ searchScored query emb n fl mf docs := mem_jsSortBy.1 h1
  simpa [searchScored, List.mem_filterMap] using h2

/-- Fields guaranteed by a successful score: distance is the similarity
complement, similarity is clamped above at 1 and strictly above the floor. -/
lemma vsScoreDoc_props {query : String} {emb : List ℚ} {n fl : ℚ}
    {mf : Option MetadataFilter} {doc : VectorDocument} {r : VectorSearchResult}
    (h : vsScoreDoc query emb n fl mf doc = some r) :
    r.distance = 1 - r.similarity ∧ r.similarity ≤ 1 ∧ fl < r.similarity := by
  simp only [vsScoreDoc] at h
  split at h
  · exact absurd h (by simp)
  · split at h
    · next hfl =>
      simp only [Option.some.injEq] at h
      subst h
      exact ⟨rfl, min_le_left _ _, hfl⟩
    · exact absurd h (by simp)

/-- C5 (amended). Every result of a `search` call that is not served from the
query cache has `distance = 1 - similarity`, a similarity at most 1 and
strictly above the effective floor; the similarity lies in `[0, 1]` whenever
the effective floor is non-negative (which holds for every default floor),
but a caller-supplied negative floor can let negative similarities through. -/
theorem c5_similarity_range_amended :
    ∀ (embedQuery : String → Except String (List ℚ)) (now : ℚ) (s : StoreState)
      (query : String) (limit : ℕ) (minSim : Option ℚ) (filter : Option MetadataFilter),
      s.queryCache = [] →
      ∀ r ∈ (search embedQuery now s query limit minSim filter).1,
        r.distance = 1 - r.similarity ∧ r.similarity ≤ 1 ∧
        adjustedMinSimilarity query minSim < r.similarity ∧
        (0 ≤ adjustedMinSimilarity query minSim → 0 ≤ r.similarity) := by
  intro embedQuery now s query limit minSim filter hq r hr
  rw [search_cacheEmpty_eq embedQuery now s query limit minSim filter hq] at hr
  split at hr
  · simp at hr
  · rcases searchMiss_cases embedQuery now s query limit
      (adjustedMinSimilarity query minSim) filter
      ⟨query, limit, adjustedMinSimilarity query minSim, filter⟩ with hnil | ⟨emb, s1, _, _, heq⟩
    · rw [hnil] at hr
      simp at hr
    · rw [heq] at hr
      obtain ⟨doc, _, hscore⟩ := mem_searchRanked_elim hr
      obtain ⟨h1, h2, h3⟩ := vsScoreDoc_props hscore
      exact ⟨h1, h2, h3, fun h0 => le_of_lt (lt_of_le_of_lt h0 h3)⟩

/-- C5 (counterexample). With a caller-supplied negative floor and an
embedding opposite to the query's, `search` returns a result whose similarity
is negative — outside `[0, 1]` (its distance still equals `1 - similarity`). -/
theorem c5_similarity_range_cex :
    ((search cexEmbed 1000 cexStoreNeg "zq" 10 (some (-2)) none).1).map
        VectorSearchResult.similarity = [-1071 / 1690] ∧
      ¬ (0 ≤ (-1071 / 1690 : ℚ)) := by
  constructor
  · decide
  · norm_num

/-- C5 (witness). The amended theorem applied to the concrete two-document
store and its first returned result. -/
theorem c5_similarity_range_witness :
    cexRes1.distance = 1 - cexRes1.similarity ∧ cexRes1.similarity ≤ 1 ∧
    adjustedMinSimilarity "zq" (some (1 / 10)) < cexRes1.similarity ∧
    (0 ≤ adjustedMinSimilarity "zq" (some (1 / 10)) → 0 ≤ cexRes1.similarity) :=
  c5_similarity_range_amended cexEmbed 1000 cexStore "zq" 10 (some (1 / 10)) none rfl
    cexRes1 (by decide)

/-- C4 (amended). Every `search` result list not served from the query cache
has at most one result per source filename (`metadata?.filename || "unknown"`),
keeping the first-ranked occurrence, and at most `limit` results whenever
`limit ≥ 1`; a call with `limit = 0` can still return one result, because the
loop checks the length only after a push. -/
theorem c4_dedup_limit_amended :
    ∀ (embedQuery : String → Except String (List ℚ)) (now : ℚ) (s : StoreState)
      (query : String) (limit : ℕ) (minSim : Option ℚ) (filter : Option MetadataFilter),
      s.queryCache = [] →
      List.Pairwise (fun a b =>
          jsOrStr a.metadata.filename "unknown" ≠ jsOrStr b.metadata.filename "unknown")
        (search embedQuery now s query limit minSim filter).1 ∧
      (1 ≤ limit → (search embedQuery now s query limit minSim filter).1.length ≤ limit) := by
  intro embedQuery now s query limit minSim filter hq
  rw [search_cacheEmpty_eq embedQuery now s query limit minSim filter hq]
  split
  · exact ⟨by simp, by simp⟩
  · rcases searchMiss_cases embedQuery now s query limit
      (adjustedMinSimilarity query minSim) filter
      ⟨query, limit, adjustedMinSimilarity query minSim, filter⟩ with hnil | ⟨emb, s1, _, _, heq⟩
    · rw [hnil]
      exact ⟨by simp, by simp⟩
    · rw [heq]
      exact ⟨dedupGo_pairwise _ _ _, fun hl => dedupGo_length _ _ _ hl⟩

/-- C4 (counterexample). The claim bounds every result list by `limit`; a call
with `limit = 0` on the two-document store still returns one result. -/
theorem c4_dedup_limit_cex :
    ((search cexEmbed 1000 cexStore "zq" 0 (some (1 / 10)) none).1).length = 1 ∧
      ¬ ((search cexEmbed 1000 cexStore "zq" 0 (some (1 / 10)) none).1).length ≤ 0 := by
  constructor
  · decide
  · decide

/-- C4 (witness). The amended theorem applied to the concrete store with
`limit = 10`. -/
theorem c4_dedup_limit_witness :
    List.Pairwise (fun a b =>
        jsOrStr a.metadata.filename "unknown" ≠ jsOrStr b.metadata.filename "unknown")
      (search cexEmbed 1000 cexStore "zq" 10 (some (1 / 10)) none).1 ∧
    (1 ≤ 10 →
      (search cexEmbed 1000 cexStore "zq" 10 (some (1 / 10)) none).1.length ≤ 10) :=
  c4_dedup_limit_amended cexEmbed 1000 cexStore "zq" 10 (some (1 / 10)) none rfl

/-- The search comparator is total: of the two orientations one is always
non-positive. -/
lemma searchCmp_total : ∀ a b : VectorSearchResult, searchCmp a b ≤ 0 ∨ searchCmp b a ≤ 0 := by
  intro a b
  unfold searchCmp
  rw [abs_sub_comm b.similarity a.similarity]
  by_cases hc : 1 / 100 < |a.similarity - b.similarity|
  · rw [if_pos hc, if_pos hc]
    rcases le_total b.similarity a.similarity with h | h
    · left; linarith
    · right; linarith
  · rw [if_neg hc, if_neg hc]
    rcases le_total (jsOrQ b.metadata.timestamp 0) (jsOrQ a.metadata.timestamp 0) with h | h
    · left; linarith
    · right; linarith

/-- Reading off the two ordering clauses from a non-positive comparator
value. -/
lemma searchCmp_nonpos {a b : VectorSearchResult} (h : searchCmp a b ≤ 0) :
    (1 / 100 < |a.similarity - b.similarity| → b.similarity ≤ a.similarity) ∧
    (|a.similarity - b.similarity| ≤ 1 / 100 →
      jsOrQ b.metadata.timestamp 0 ≤ jsOrQ a.metadata.timestamp 0) := by
  unfold searchCmp at h
  constructor
  · intro hgt
    rw [if_pos hgt] at h
    linarith
  · intro hle
    rw [if_neg (not_lt.2 hle)] at h
    linarith

/-- C1 (amended). On a cache miss, the `sortedResults` list of `search` is
locally ordered by the comparator — between adjacent entries, a similarity gap
above 0.01 is non-increasing in similarity, and a gap of at most 0.01 is
non-increasing in `metadata?.timestamp || 0` — and the returned list is its
per-filename deduplication truncated at `limit`. Because the comparator is not
transitive and deduplication removes interior elements, the returned list
itself need not be non-increasing in similarity. -/
theorem c1_rank_order_amended :
    ∀ (embedQuery : String → Except String (List ℚ)) (now : ℚ) (s : StoreState)
      (query : String) (limit : ℕ) (minSim : Option ℚ) (filter : Option MetadataFilter)
      (emb : List ℚ),
      s.queryCache = [] → s.embeddingCache = [] → embedQuery query = .ok emb →
      List.Chain' (fun a b =>
          (1 / 100 < |a.similarity - b.similarity| → b.similarity ≤ a.similarity) ∧
          (|a.similarity - b.similarity| ≤ 1 / 100 →
            jsOrQ b.metadata.timestamp 0 ≤ jsOrQ a.metadata.timestamp 0))
        (searchRanked query emb (calculateNorm emb) (adjustedMinSimilarity query minSim)
          filter s.documents) ∧
      (search embedQuery now s query limit minSim filter).1 =
        deduplicateByDocument
          (searchRanked query emb (calculateNorm emb) (adjustedMinSimilarity query minSim)
            filter s.documents) limit := by
  intro embedQuery now s query limit minSim filter emb hq he hemb
  constructor
  · unfold searchRanked
    exact (jsSortBy_chain searchCmp searchCmp_total _).imp fun a b h => searchCmp_nonpos h
  · rw [search_cacheEmpty_eq embedQuery now s query limit minSim filter hq]
    split
    · next hde =>
      rw [List.isEmpty_iff.1 hde]
      simp [searchRanked, searchScored, jsSortBy, List.insertionSort,
        deduplicateByDocument, dedupGo]
    · simp [searchMiss, getCachedEmbedding, he, lookupAssoc, getFreshEmbedding, hemb]

/-- C1 (counterexample). On the two-document store the returned list is
`[cexRes1, cexRes2]` with strictly increasing similarities (the lower-scored
result has the newer metadata timestamp, and the 0.0053 gap falls inside the
0.01 tie band), so the results are not sorted non-increasing by similarity. -/
theorem c1_rank_order_cex :
    (search cexEmbed 1000 cexStore "zq" 10 (some (1 / 10)) none).1 = [cexRes1, cexRes2] ∧
    cexRes1.similarity < cexRes2.similarity ∧
    ¬ List.Chain' (fun a b : VectorSearchResult => b.similarity ≤ a.similarity)
        (search cexEmbed 1000 cexStore "zq" 10 (some (1 / 10)) none).1 := by
  have hout : (search cexEmbed 1000 cexStore "zq" 10 (some (1 / 10)) none).1 =
      [cexRes1, cexRes2] := by decide
  refine ⟨hout, by norm_num [cexRes1, cexRes2], ?_⟩
  rw [hout]
  intro h
  have h1 := (List.chain'_cons.1 h).1
  norm_num [cexRes1, cexRes2] at h1

/-- C1 (witness). The amended theorem applied to the concrete store. -/
theorem c1_rank_order_witness :
    List.Chain' (fun a b =>
        (1 / 100 < |a.similarity - b.similarity| → b.similarity ≤ a.similarity) ∧
        (|a.similarity - b.similarity| ≤ 1 / 100 →
          jsOrQ b.metadata.timestamp 0 ≤ jsOrQ a.metadata.timestamp 0))
      (searchRanked "zq" [1, 0] (calculateNorm [1, 0])
        (adjustedMinSimilarity "zq" (some (1 / 10))) none cexStore.documents) ∧
    (search cexEmbed 1000 cexStore "zq" 10 (some (1 / 10)) none).1 =
      deduplicateByDocument
        (searchRanked "zq" [1, 0] (calculateNorm [1, 0])
          (adjustedMinSimilarity "zq" (some (1 / 10))) none cexStore.documents) 10 :=
  c1_rank_order_amended cexEmbed 1000 cexStore "zq" 10 (some (1 / 10)) none [1, 0]
    rfl rfl rfl

/-- A financial chunk for the lexical-store evaluation. -/
def fbCex1 : FBChunk :=
  { id := "1", text := "Revenue: $2,500,000 this quarter", metadataJson := "" }

/-- An unrelated chunk that scores zero for the revenue query. -/
def fbCex2 : FBChunk :=
  { id := "2", text := "Meeting notes about scheduling topics", metadataJson := "" }

/-- The scored record `fbSearch` produces for `fbCex1` under the revenue
query: 0.3·0 + 0.2·0.1 + 0.1·0 + 0.4·0.9 = 0.38. -/
def fbCexScored : FBScored :=
  { id := "1", text := "Revenue: $2,500,000 this quarter", metadataJson := "",
    similarity := 19 / 50, exactScore := 0, keywordScore := 1 / 10,
    metadataScore := 0, questionScore := 9 / 10 }

/-- C9. Every record returned by `fileBasedStore.search` carries the combined
score 0.3·exact + 0.2·keyword + 0.1·metadata + 0.4·question of its own text
and metadata, exceeds the fixed 0.05 threshold, and the list is sorted
non-increasing in combined score with at most `limit` entries. -/
theorem c9_fb_scoring :
    ∀ (query : String) (docs : List FBChunk) (limit : ℕ),
      (∀ r ∈ fbSearch query docs limit,
        r.similarity =
          calculateExactMatchScore (jsLower query) (jsLower r.text) * (3 / 10) +
          calculateKeywordScore (jsLower query) (jsLower r.text) * (1 / 5) +
          calculateMetadataScore (jsLower query) (jsLower r.metadataJson) * (1 / 10) +
          calculateQuestionScore (jsLower query) (jsLower r.text) * (2 / 5) ∧
        (1 / 20 : ℚ) < r.similarity) ∧
      List.Pairwise (fun a b : FBScored => b.similarity ≤ a.similarity)
        (fbSearch query docs limit) ∧
      (fbSearch query docs limit).length ≤ limit := by
  intro query docs limit
  refine ⟨?_, ?_, List.length_take_le _ _⟩
  · intro r hr
    have h1 := List.mem_of_mem_take hr
    have h2 := mem_jsSortBy.1 h1
    have h3 := List.mem_filter.1 h2
    obtain ⟨d, hd, rfl⟩ := List.mem_map.1 h3.1
    refine ⟨?_, by simpa using h3.2⟩
    simp [fbScoreDoc, fbTotalScore]
  · have hp := jsSortBy_pairwise (fun a b : FBScored => b.similarity - a.similarity)
      (fun a b => by
        dsimp only
        rcases le_total b.similarity a.similarity with h | h
        · left; linarith
        · right; linarith)
      (fun a b c h1 h2 => by dsimp only at h1 h2 ⊢; linarith)
      ((docs.map (fbScoreDoc (jsLower query))).filter fun d => (1 / 20 : ℚ) < d.similarity)
    have hp2 : List.Pairwise (fun a b : FBScored => b.similarity ≤ a.similarity)
        (jsSortBy (fun a b : FBScored => b.similarity - a.similarity)
          ((docs.map (fbScoreDoc (jsLower query))).filter
            fun d => (1 / 20 : ℚ) < d.similarity)) :=
      hp.imp fun {a b} h => by
        have h2 : b.similarity - a.similarity ≤ 0 := h
        linarith
    exact hp2.sublist (List.take_sublist _ _)

/-- C9 (witness). The scoring theorem applied to a concrete two-chunk store
under the revenue query; only the financial chunk survives, with combined
score 0.38. -/
theorem c9_fb_scoring_witness :
    (1 / 20 : ℚ) < fbCexScored.similarity ∧
    fbCexScored.similarity =
      calculateExactMatchScore (jsLower "What is the revenue?") (jsLower fbCexScored.text) * (3 / 10) +
      calculateKeywordScore (jsLower "What is the revenue?") (jsLower fbCexScored.text) * (1 / 5) +
      calculateMetadataScore (jsLower "What is the revenue?") (jsLower fbCexScored.metadataJson) * (1 / 10) +
      calculateQuestionScore (jsLower "What is the revenue?") (jsLower fbCexScored.text) * (2 / 5) := by
  have h := (c9_fb_scoring "What is the revenue?" [fbCex1, fbCex2] 10).1 fbCexScored
    (by decide)
  exact ⟨h.2, h.1⟩

/-- String length of a packed character list. -/
lemma ofL_length (l : List Char) : (ofL l).length = l.length := rfl

/-- Every email-strategy chunk has at least 20 characters (final filter). -/
lemma chunkEmail_len (t : String) : ∀ c ∈ chunkEmailSemantically t, 20 ≤ c.length := by
  intro c hc
  simp only [chunkEmailSemantically, List.mem_map] at hc
  obtain ⟨lc, hlc, rfl⟩ := hc
  obtain ⟨-, hlen⟩ := List.mem_filter.1 hlc
  have : 20 ≤ lc.length := of_decide_eq_true hlen
  simpa [ofL_length] using this

/-- Every contract-strategy chunk has at least 20 characters (final filter). -/
lemma chunkContract_len (t : String) : ∀ c ∈ chunkContractSemantically t, 20 ≤ c.length := by
  intro c hc
  simp only [chunkContractSemantically, List.mem_map] at hc
  obtain ⟨lc, hlc, rfl⟩ := hc
  obtain ⟨-, hlen⟩ := List.mem_filter.1 hlc
  have : 20 ≤ lc.length := of_decide_eq_true hlen
  simpa [ofL_length] using this

/-- Every generic-strategy chunk has at least 20 characters
(`postProcessChunks` floor). -/
lemma chunkEnhanced_len (t : String) : ∀ c ∈ chunkTextEnhanced t, 20 ≤ c.length := by
  intro c hc
  simp only [chunkTextEnhanced, List.mem_map] at hc
  obtain ⟨lc, hlc, rfl⟩ := hc
  have : 20 ≤ lc.length :=
    postProcessGo_length _ _ [] (by simp) lc hlc
  simpa [ofL_length] using this

/-- Generic-strategy chunks are pairwise distinct after lower-casing and
trimming (`postProcessChunks` deduplication). -/
lemma chunkEnhanced_pairwise (t : String) :
    List.Pairwise (fun a b => jsTrim (jsLower a) ≠ jsTrim (jsLower b))
      (chunkTextEnhanced t) := by
  simp only [chunkTextEnhanced]
  rw [List.pairwise_map]
  have hp := postProcessGo_pairwise
    (if ((((enhBoundaries (strL t)).zip (enhBoundaries (strL t)).tail).map
        fun p => enhSpanChunks (strL t) p.1 p.2).flatten).length = 0 then
      fallbackChunkingSemantically (strL t) 900
    else (((enhBoundaries (strL t)).zip (enhBoundaries (strL t)).tail).map
        fun p => enhSpanChunks (strL t) p.1 p.2).flatten)
    [] [] (by simp) (by simp)
  refine List.Pairwise.imp ?_ hp
  intro a b hne h
  exact hne (congrArg String.data h)

/-- C2 (amended). Under every strategy (email, contract, generic) the chunker
returns only chunks of length at least 20; the generic strategy additionally
returns no two chunks equal after lower-casing and trimming, but the email and
contract strategies perform no such deduplication and can repeat chunks. -/
theorem c2_chunk_quality_amended :
    (∀ (text filename : String) (documentType : Option String),
      ∀ c ∈ chunkTextSemantically text filename documentType, 20 ≤ c.length) ∧
    (∀ text : String,
      List.Pairwise (fun a b => jsTrim (jsLower a) ≠ jsTrim (jsLower b))
        (chunkTextEnhanced text)) := by
  constructor
  · intro text filename dt c hc
    simp only [chunkTextSemantically] at hc
    split at hc
    · exact chunkEmail_len text c hc
    · split at hc
      · exact chunkContract_len text c hc
      · exact chunkEnhanced_len text c hc
  · exact chunkEnhanced_pairwise

/-- Alternating-paragraph email text that reproduces two identical chunks. -/
def c2Text : String :=
  "Hello there my good friend\n\nRevenue is up a lot today\n\nHello there my good friend\n\nRevenue is up a lot today"

/-- C2 (counterexample). Under the email strategy a general paragraph, a
financial paragraph and their repetitions force a chunk boundary at every type
change, and no deduplication is applied, so the chunk
"Hello there my good friend" is returned twice — the claimed case-insensitive
uniqueness fails. -/
theorem c2_chunk_quality_cex :
    chunkTextSemantically c2Text "m.eml" (some "email") =
      ["Hello there my good friend", "Revenue is up a lot today",
       "Hello there my good friend", "Revenue is up a lot today"] ∧
    ¬ List.Pairwise (fun a b => jsTrim (jsLower a) ≠ jsTrim (jsLower b))
        (chunkTextSemantically c2Text "m.eml" (some "email")) := by
  have hout : chunkTextSemantically c2Text "m.eml" (some "email") =
      ["Hello there my good friend", "Revenue is up a lot today",
       "Hello there my good friend", "Revenue is up a lot today"] := by decide
  refine ⟨hout, ?_⟩
  rw [hout]
  intro h
  exact (List.pairwise_cons.1 h).1 "Hello there my good friend" (by simp) rfl

/-- C2 (witness). The length floor of the amended theorem at a concrete chunk
of the counterexample input. -/
theorem c2_chunk_quality_witness :
    "Hello there my good friend" ∈ chunkTextSemantically c2Text "m.eml" (some "email") ∧
    20 ≤ ("Hello there my good friend" : String).length := by
  have hm : "Hello there my good friend" ∈ chunkTextSemantically c2Text "m.eml" (some "email") := by
    decide
  exact ⟨hm, c2_chunk_quality_amended.1 c2Text "m.eml" (some "email")
    "Hello there my good friend" hm⟩

end DocParser
